import Mathlib

/-!
# libARNetwork: the sender and the JNI manager binding

A shallow embedding of `Sources/sender.c` (the sending loop, the staging of
the front element of every input buffer, the handling of acknowledgements and
the construction of a sender) and of the constructor of
`JNI/c/ARNETWORK_JNIManager.c`.

Conventions of the embedding.

* C `int` flags and counters (`isAlive`, `needAck`, `isWaitAck`,
  `seqWaitAck`, `waitTimeCount`, `seq`) are `Int`; a flag is set when it is
  non-zero, as in C.  The counters are not wrapped: signed overflow is
  undefined in C and none of the statements below reaches it.
* A pointer into the table of input buffers is an index into a list.
* The ring buffer, the single (staging) buffer and the in/out buffer live in
  `ringBuffer.c`, `singleBuffer.c` and `inOutBuffer.c`, which are not part of
  the sources at hand; the few operations the sender calls are modelled from
  the specification and are marked as such.
-/

namespace ARNetwork

/-! ## Data model -/

/-- One cell of a ring buffer: the bytes of one queued element. -/
abbrev Cell := List Nat

/-- Modelled from the spec: the ring buffer of `ringBuffer.c` (absent), a
fixed-capacity store of cells of one fixed size.  The queued cells are kept in
enqueue order, the front cell first; the wrapping indices of the C structure
are abstracted away. -/
structure RingBuffer where
  /-- Capacity, in cells. -/
  buffSize : Nat
  /-- Size of one cell, in bytes. -/
  buffCellSize : Nat
  /-- Queued cells, front first. -/
  cells : List Cell
deriving DecidableEq, Repr

/-- Modelled from the spec: the single buffer of `singleBuffer.c` (absent),
used as the staging area of the sender.  `pFront` is the write position, as an
offset in bytes from `pStart`; `staged` lists the cells copied into the area,
oldest first. -/
structure Buffer where
  /-- Capacity, in cells. -/
  buffSize : Nat
  /-- Size of one cell, in bytes. -/
  buffCellSize : Nat
  /-- Write position: offset of `pFront` from `pStart`, in bytes. -/
  pFront : Nat
  /-- Cells copied into the area so far, oldest first. -/
  staged : List Cell
deriving DecidableEq, Repr

/-- The in/out buffer `netWork_inOutBuffer_t`: the fields the sender reads and
writes. -/
structure InOutBuffer where
  id : Int
  needAck : Int
  sendingWaitTime : Int
  isWaitAck : Int
  seqWaitAck : Int
  waitTimeCount : Int
  pBuffer : RingBuffer
deriving DecidableEq, Repr

/-- The sender `netWork_Sender_t`, with every pointer of the structure valid
(the state `runSendingThread` and `senderTransmitAck` dereference without a
check). -/
structure Sender where
  isAlive : Int
  sleepTime : Int
  inputBufferNum : Nat
  pptab_inputBuffer : List InOutBuffer
  pSendingBuffer : Buffer
deriving DecidableEq, Repr

/-- The parameters `netWork_paramNewInOutBuffer_t` of one input buffer, the
five values read from the variable argument list of `newSender`. -/
structure ParamNewInOutBuffer where
  id : Int
  needAck : Int
  sendingWaitTime : Int
  buffSize : Nat
  buffCellSize : Nat
deriving DecidableEq, Repr

/-! ## Ring buffer and single buffer operations -/

/-- Modelled from the spec: `ringBuffIsEmpty` (absent), the `is_empty` of the
ring buffer. -/
def ringBuffIsEmpty (r : RingBuffer) : Bool :=
  r.cells.isEmpty

/-- Modelled from the spec: `ringBuffFront` (absent), the `peek_front` of the
ring buffer: the front cell, or `none` (a non-zero error in C) when the ring
is empty.  The ring is not changed. -/
def ringBuffFront (r : RingBuffer) : Option Cell :=
  r.cells.head?

/-- Modelled from the spec: `ringBuffPopFront` (absent), the `pop_front` of
the ring buffer: error code and ring afterwards.  Popping an empty ring fails
(error 1) and leaves it unchanged. -/
def ringBuffPopFront (r : RingBuffer) : Int × RingBuffer :=
  match r.cells with
  | [] => (1, r)
  | _ :: rest => (0, { r with cells := rest })

/-- Modelled from the spec: `ringBuffPushBack` (absent), the `push` of the
ring buffer: error code and ring afterwards.  Pushing into a full ring fails
(error 1) and leaves it unchanged. -/
def ringBuffPushBack (r : RingBuffer) (c : Cell) : Int × RingBuffer :=
  if r.cells.length < r.buffSize then (0, { r with cells := r.cells ++ [c] }) else (1, r)

/-- Modelled from the spec: `bufferGetFreeCellNb` (absent), the
`free_cell_count` of the staging area: the number of whole cells between the
write position and the end of the area. -/
def bufferGetFreeCellNb (b : Buffer) : Nat :=
  (b.buffSize * b.buffCellSize - b.pFront) / b.buffCellSize

/-- Modelled from the spec: `newRingBuffer` (absent): an empty ring. -/
def newRingBuffer (buffSize buffCellSize : Nat) : RingBuffer :=
  { buffSize := buffSize, buffCellSize := buffCellSize, cells := [] }

/-- Modelled from the spec: `newBuffer` (absent): an empty single buffer, or
`none` (NULL) when the allocation fails. -/
def newBuffer (allocOk : Bool) (buffSize buffCellSize : Nat) : Option Buffer :=
  if allocOk then
    some { buffSize := buffSize, buffCellSize := buffCellSize, pFront := 0, staged := [] }
  else none

/-- Modelled from the spec: `newInOutBuffer` (absent): a stream with an empty
ring that waits for nothing, or `none` (NULL) when the allocation fails. -/
def newInOutBuffer (allocOk : Bool) (p : ParamNewInOutBuffer) : Option InOutBuffer :=
  if allocOk then
    some { id := p.id, needAck := p.needAck, sendingWaitTime := p.sendingWaitTime,
           isWaitAck := 0, seqWaitAck := 0, waitTimeCount := 0,
           pBuffer := newRingBuffer p.buffSize p.buffCellSize }
  else none

/-- Modelled from the spec: `inOutBufferWithId` (absent): the position in the
table, among the first `num` entries, of the first buffer whose id is `id`;
`none` (NULL) when there is none. -/
def inOutBufferWithId (tab : List InOutBuffer) (num : Nat) (id : Int) : Option Nat :=
  let i := (tab.take num).findIdx (fun b => b.id == id)
  if i < (tab.take num).length then some i else none

/-- Modelled from the spec: `inOutBufferTransmitAck` (absent), `matches_ack`
followed by `clear_waiting_ack`: a buffer waiting for the acknowledgement of
`seqNum` stops waiting; any other acknowledgement changes nothing. -/
def inOutBufferTransmitAck (b : InOutBuffer) (seqNum : Int) : InOutBuffer :=
  if b.isWaitAck ≠ 0 ∧ b.seqWaitAck = seqNum then { b with isWaitAck := 0 } else b

/-! ## The sender (`Sources/sender.c`) -/

/-- The function `senderAddToBuffer`: error code and sender afterwards.  The
front cell of the input ring is copied to the staging area and the write
position advances by the cell size of the ring, provided the area has at least
that many free cells and the ring is not empty.  The C call hands
`ringBuffFront` the staging buffer as destination; the copy is recorded as one
more staged cell.  `seqNum` is not used by the C function. -/
def senderAddToBuffer (pSender : Sender) (pinputBuff : InOutBuffer) (_seqNum : Int) :
    Int × Sender :=
  if bufferGetFreeCellNb pSender.pSendingBuffer ≥ pinputBuff.pBuffer.buffCellSize then
    match ringBuffFront pinputBuff.pBuffer with
    | none => (1, pSender)
    | some cell =>
      (0, { pSender with
              pSendingBuffer :=
                { pSender.pSendingBuffer with
                    staged := pSender.pSendingBuffer.staged ++ [cell]
                    pFront := pSender.pSendingBuffer.pFront + pinputBuff.pBuffer.buffCellSize } })
  else (1, pSender)

/-- One successful staging, as observed from outside: which table entry was
served, its id, the cell copied and the value of `seq` at that moment. -/
structure StageEvent where
  indexInput : Nat
  id : Int
  cell : Cell
  seq : Int
deriving DecidableEq, Repr

/-- The state of `runSendingThread`: the sender, the local counter `seq`, and
the list of stagings performed so far (an observation only, the C code keeps
no such list). -/
structure SendingThread where
  pSender : Sender
  seq : Int
  trace : List StageEvent
deriving DecidableEq, Repr

/-- Replace entry `i` of the table of input buffers. -/
def Sender.setInput (s : Sender) (i : Nat) (b : InOutBuffer) : Sender :=
  { s with pptab_inputBuffer := s.pptab_inputBuffer.set i b }

/-- The body of the `for` loop of `runSendingThread` for one value of
`indexInput`. -/
def sendingLoopBody (st : SendingThread) (indexInput : Nat) : SendingThread :=
  match st.pSender.pptab_inputBuffer[indexInput]? with
  | none => st
  | some pInputTemp =>
    if ringBuffIsEmpty pInputTemp.pBuffer = false ∧ pInputTemp.isWaitAck = 0 ∧
        pInputTemp.waitTimeCount = 0 then
      if (senderAddToBuffer st.pSender pInputTemp st.seq).1 = 0 then
        let pSender := (senderAddToBuffer st.pSender pInputTemp st.seq).2
        let pInputNew : InOutBuffer :=
          if pInputTemp.needAck ≠ 0 then
            { pInputTemp with isWaitAck := 1, seqWaitAck := st.seq }
          else
            { pInputTemp with pBuffer := (ringBuffPopFront pInputTemp.pBuffer).2 }
        { pSender := pSender.setInput indexInput pInputNew
          seq := st.seq + 1
          trace := st.trace ++
            [{ indexInput := indexInput, id := pInputTemp.id,
               cell := (ringBuffFront pInputTemp.pBuffer).getD [], seq := st.seq }] }
      else st
    else if pInputTemp.waitTimeCount ≠ 0 then
      { st with
          pSender := st.pSender.setInput indexInput
            { pInputTemp with waitTimeCount := pInputTemp.waitTimeCount - 1 } }
    else st

/-- The `for` loop of `runSendingThread` stopped when `indexInput` reaches
`k`: the state in which the buffer of index `k` gets its turn. -/
def sendingLoopUpTo (st : SendingThread) : Nat → SendingThread
  | 0 => st
  | k + 1 => sendingLoopBody (sendingLoopUpTo st k) k

/-- The function `senderSend`: an empty body. -/
def senderSend (pSender : Sender) : Sender :=
  pSender

/-- One tick: one iteration of the `while` loop of `runSendingThread`, the
`for` loop over the `inputBufferNum` input buffers followed by `senderSend`. -/
def tick (st : SendingThread) : SendingThread :=
  let st1 := sendingLoopUpTo st st.pSender.inputBufferNum
  { st1 with pSender := senderSend st1.pSender }

/-- The loop `while (pSender->isAlive)` of `runSendingThread`, run for at most
`n` iterations; it stops as soon as `isAlive` is found to be 0. -/
def runSendingLoop : Nat → SendingThread → SendingThread
  | 0, st => st
  | n + 1, st => if st.pSender.isAlive ≠ 0 then runSendingLoop n (tick st) else st

/-- The function `runSendingThread` up to `n` iterations of its loop: `seq`
starts at 0. -/
def runSendingThread (n : Nat) (data : Sender) : SendingThread :=
  runSendingLoop n { pSender := data, seq := 0, trace := [] }

/-- The cells of the stream served at table index `i` among a list of
stagings, in staging order. -/
def streamCells (i : Nat) (tr : List StageEvent) : List Cell :=
  (tr.filter (fun e => e.indexInput == i)).map (fun e => e.cell)

/-- The stagings performed by one tick, in the order in which they were
performed. -/
def tickEvents (st : SendingThread) : List StageEvent :=
  (tick st).trace.drop st.trace.length

/-- The function `stopSender`. -/
def stopSender (pSender : Sender) : Sender :=
  { pSender with isAlive := 0 }

/-- The function `senderTransmitAck`: the buffer with the given id is handed
the acknowledgement, then the front of its ring is popped. -/
def senderTransmitAck (pSender : Sender) (id seqNum : Int) : Sender :=
  match inOutBufferWithId pSender.pptab_inputBuffer pSender.inputBufferNum id with
  | none => pSender
  | some i =>
    match pSender.pptab_inputBuffer[i]? with
    | none => pSender
    | some pInputBuff =>
      let acked := inOutBufferTransmitAck pInputBuff seqNum
      pSender.setInput i { acked with pBuffer := (ringBuffPopFront acked.pBuffer).2 }

/-! ## Construction of a sender -/

/-- The outcome of every allocation attempted by one call of `newSender`:
`malloc` of the sender, `malloc` of the table, the call number `j` (counted
from 0) of `newInOutBuffer`, and `newBuffer`. -/
structure SenderAlloc where
  senderOk : Bool
  tableOk : Bool
  inOutOk : Nat → Bool
  bufferOk : Bool

/-- The sender as `newSender` hands it back: a table entry or the staging
buffer may be NULL (`none`). -/
structure RawSender where
  isAlive : Int
  sleepTime : Int
  inputBufferNum : Nat
  pptab_inputBuffer : List (Option InOutBuffer)
  pSendingBuffer : Option Buffer
deriving DecidableEq, Repr

/-- The constant `SENDER_SLEEP_TIME_MS`. -/
def SENDER_SLEEP_TIME_MS : Int := 1

/-- The `for` loop of `newSender`: `iiInputBuff` runs from `inputBufferNum`
down to 1, each iteration reads the next five arguments and stores the new
buffer at `iiInputBuff - 1`, that is just below the entries stored before.
`j` counts the calls of `newInOutBuffer`, `filled` is the part of the table
already written (entries `iiInputBuff` and above). -/
def newSenderFill (inOutOk : Nat → Bool) :
    Nat → List ParamNewInOutBuffer → List (Option InOutBuffer) → List (Option InOutBuffer)
  | _, [], filled => filled
  | j, p :: rest, filled =>
    newSenderFill inOutOk (j + 1) rest (newInOutBuffer (inOutOk j) p :: filled)

/-- The function `newSender`; the variable argument list is the list of the
parameters of the input buffers, `inputBufferNum` its length.  The result is
`none` for NULL.  When an error is detected `deleteSender` frees what was
built and NULL is returned. -/
def newSender (alloc : SenderAlloc) (sendingBufferSize : Nat)
    (params : List ParamNewInOutBuffer) : Option RawSender :=
  if alloc.senderOk then
    if alloc.tableOk then
      let table := newSenderFill alloc.inOutOk 0 params []
      match newBuffer alloc.bufferOk sendingBufferSize 1 with
      | none => none
      | some buf =>
        some { isAlive := 1, sleepTime := SENDER_SLEEP_TIME_MS,
               inputBufferNum := params.length,
               pptab_inputBuffer := table, pSendingBuffer := some buf }
    else none
  else none

/-- The entries of a table of pointers when none of them is NULL. -/
def allValid {α : Type} : List (Option α) → Option (List α)
  | [] => some []
  | none :: _ => none
  | some a :: rest =>
    match allValid rest with
    | none => none
    | some l => some (a :: l)

/-- A sender all of whose pointers are valid, as the running thread needs it;
`none` when an entry of the table or the staging buffer is NULL. -/
def RawSender.toSender (r : RawSender) : Option Sender :=
  match allValid r.pptab_inputBuffer, r.pSendingBuffer with
  | some tab, some buf =>
    some { isAlive := r.isAlive, sleepTime := r.sleepTime,
           inputBufferNum := r.inputBufferNum,
           pptab_inputBuffer := tab, pSendingBuffer := buf }
  | _, _ => none

/-- The allocation outcome in which nothing fails. -/
def SenderAlloc.allOk : SenderAlloc :=
  { senderOk := true, tableOk := true, inOutOk := fun _ => true, bufferOk := true }

/-! ## The constructor of the JNI binding (`JNI/c/ARNETWORK_JNIManager.c`) -/

/-- The error codes of `eARNETWORK_ERROR` the binding names, and any other
code the manager may report. -/
inductive eARNETWORK_ERROR where
  | ARNETWORK_OK
  | ARNETWORK_ERROR
  | ARNETWORK_ERROR_ALLOC
  | ARNETWORK_ERROR_BUFFER_SIZE
  | other (code : Int)
deriving DecidableEq, Repr

/-- What the Java side and the C library answer during one call of
`nativeNew`.  `P` stands for `ARNETWORK_IOBufferParam_t`, whose declaration is
not part of the sources at hand. -/
structure NativeNewEnv (P : Type) where
  /-- Whether `FindClass` finds the class of the parameters. -/
  classFound : Bool
  /-- Whether `malloc` of the input parameter array returns non-NULL. -/
  inputMallocOk : Bool
  /-- Whether `malloc` of the output parameter array returns non-NULL. -/
  outputMallocOk : Bool
  /-- The parameters held by the Java array `inputParamArray`. -/
  inputParamArray : List P
  /-- The parameters held by the Java array `outputParamArray`. -/
  outputParamArray : List P
  /-- The function `ARNETWORK_Manager_New`: from the two counts and the two C
  arrays to the manager pointer and the error it stores. -/
  ARNETWORK_Manager_New : Int → List P → Int → List P → Int × eARNETWORK_ERROR

/-- A run of `nativeNew` that leaves defined behaviour. -/
inductive NativeFault where
  /-- A parameter is stored through the NULL input array. -/
  | nullInputArrayWrite
  /-- A parameter is stored through the NULL output array. -/
  | nullOutputArrayWrite
  /-- The Java array has no element at the index read. -/
  | missingElement
deriving DecidableEq, Repr

/-- What a terminated call of `nativeNew` did. -/
structure NativeNewResult (P : Type) where
  /-- The local `error` at the end. -/
  error : eARNETWORK_ERROR
  /-- The parameters copied to `pArrParamInput`. -/
  inputCopied : List P
  /-- The parameters copied to `pArrParamOutput`. -/
  outputCopied : List P
  /-- Whether `ARNETWORK_Manager_New` was called. -/
  managerNewCalled : Bool
  /-- The value returned, `(long) managerPtr`. -/
  handle : Int
deriving DecidableEq, Repr

/-- A copy loop of `nativeNew`: `for (ii = 0; ii < number; ++ii)
arr[ii] = javaArray[ii]`, where `arrOk` tells whether `arr` is non-NULL. -/
def copyParams {P : Type} (nullWrite : NativeFault) (arrOk : Bool) (number : Int)
    (javaArray : List P) : Except NativeFault (List P) :=
  (List.range number.toNat).foldlM
    (fun copied ii =>
      match javaArray[ii]? with
      | none => Except.error NativeFault.missingElement
      | some p => if arrOk then Except.ok (copied ++ [p]) else Except.error nullWrite)
    []

/-- The function `Java_com_parrot_arsdk_arnetwork_ARNetworkManager_nativeNew`. -/
def nativeNew {P : Type} (env : NativeNewEnv P) (numberOfInput numberOfOutput : Int) :
    Except NativeFault (NativeNewResult P) := do
  let error0 : eARNETWORK_ERROR :=
    if env.classFound then .ARNETWORK_OK else .ARNETWORK_ERROR_ALLOC
  -- allocate the input parameters
  let error1 : eARNETWORK_ERROR :=
    if error0 = .ARNETWORK_OK then
      if env.inputMallocOk = false ∧ numberOfInput ≠ 0 then .ARNETWORK_ERROR_ALLOC else error0
    else error0
  let inputArrOk : Bool := error0 = .ARNETWORK_OK ∧ env.inputMallocOk
  -- copy the input parameters
  let inputCopied ←
    if error1 = .ARNETWORK_OK then
      copyParams .nullInputArrayWrite inputArrOk numberOfInput env.inputParamArray
    else pure []
  -- allocate the output parameters; the test reads `numberOfInput`
  let error2 : eARNETWORK_ERROR :=
    if error1 = .ARNETWORK_OK then
      if env.outputMallocOk = false ∧ numberOfInput ≠ 0 then .ARNETWORK_ERROR_ALLOC else error1
    else error1
  let outputArrOk : Bool := error1 = .ARNETWORK_OK ∧ env.outputMallocOk
  -- copy the output parameters
  let outputCopied ←
    if error2 = .ARNETWORK_OK then
      copyParams .nullOutputArrayWrite outputArrOk numberOfOutput env.outputParamArray
    else pure []
  -- create the manager
  if error2 = .ARNETWORK_OK then
    let r := env.ARNETWORK_Manager_New numberOfInput inputCopied numberOfOutput outputCopied
    pure { error := r.2, inputCopied := inputCopied, outputCopied := outputCopied,
           managerNewCalled := true, handle := r.1 }
  else
    pure { error := error2, inputCopied := inputCopied, outputCopied := outputCopied,
           managerNewCalled := false, handle := 0 }

/-! ## A stop request that arrives while a tick is in progress -/

/-- The other thread runs `stopSender` on the sender the sending thread works
on: the locals of the sending thread are not touched. -/
def stopRequest (st : SendingThread) : SendingThread :=
  { st with pSender := stopSender st.pSender }

/-- The `for` loop of `runSendingThread` resumed at `indexInput = k` for `m`
more turns. -/
def sendingLoopFrom (st : SendingThread) : Nat → Nat → SendingThread
  | _, 0 => st
  | k, m + 1 => sendingLoopFrom (sendingLoopBody st k) (k + 1) m

/-- One iteration of the `while` loop during which `stopSender` is run by
another thread when `indexInput = k`: the turns before `k`, the stop request,
the remaining turns, `senderSend`.  A turn neither reads nor writes `isAlive`
and `stopSender` writes nothing else, so a request that falls inside a turn
has the effect of one that falls just before or just after it. -/
def tickWithStopAt (st : SendingThread) (k : Nat) : SendingThread :=
  let st1 := stopRequest (sendingLoopUpTo st k)
  let st2 := sendingLoopFrom st1 k (st.pSender.inputBufferNum - k)
  { st2 with pSender := senderSend st2.pSender }

/-! ## The send callback of the JNI binding -/

/-- The statuses of `eARNETWORK_MANAGER_CALLBACK_STATUS` the callback names,
and any other value of the enumeration. -/
inductive eARNETWORK_MANAGER_CALLBACK_STATUS where
  | ARNETWORK_MANAGER_CALLBACK_STATUS_SENT
  | ARNETWORK_MANAGER_CALLBACK_STATUS_ACK_RECEIVED
  | ARNETWORK_MANAGER_CALLBACK_STATUS_TIMEOUT
  | ARNETWORK_MANAGER_CALLBACK_STATUS_FREE
  | other (code : Int)
deriving DecidableEq, Repr

/-- The value the callback returns: `ARNETWORK_MANAGER_CALLBACK_RETURN_DEFAULT`
or what the Java method `callback` answered. -/
inductive eARNETWORK_MANAGER_CALLBACK_RETURN where
  | ARNETWORK_MANAGER_CALLBACK_RETURN_DEFAULT
  | fromJava (value : Int)
deriving DecidableEq, Repr

/-- The structure `ARNETWORK_JNIManager_CallbackData_t`: two global
references; the reference 0 is NULL. -/
structure ARNETWORK_JNIManager_CallbackData_t where
  jManager : Nat
  jARData : Nat
deriving DecidableEq, Repr

/-- What the callback can change: the structure `customData` points to
(`none` once it has been freed), the global references that are held, the
calls of `DeleteGlobalRef` made so far and the number of calls of `free`. -/
structure JniHeap where
  callbackData : Option ARNETWORK_JNIManager_CallbackData_t
  globalRefs : List Nat
  deletedRefs : List Nat
  freeCount : Nat
deriving DecidableEq, Repr

/-- A run of the binding that leaves defined behaviour. -/
inductive JniFault where
  /-- The callback data is read after it was freed. -/
  | useAfterFree
  /-- A field is stored through the NULL callback data pointer. -/
  | nullCallbackDataWrite
deriving DecidableEq, Repr

/-- The heap once the callback data `d` has been released: both global
references deleted, `jARData` first, and the structure freed. -/
def JniHeap.release (h : JniHeap) (d : ARNETWORK_JNIManager_CallbackData_t) : JniHeap :=
  { callbackData := none
    globalRefs := (h.globalRefs.erase d.jARData).erase d.jManager
    deletedRefs := h.deletedRefs ++ [d.jARData, d.jManager]
    freeCount := h.freeCount + 1 }

/-- The function `ARNETWORK_JNIManager_FreeCallbackData`, called with the
address of a pointer; `ptrNonNull` tells whether that pointer is non-NULL. -/
def ARNETWORK_JNIManager_FreeCallbackData (h : JniHeap) (ptrNonNull : Bool) :
    Except JniFault JniHeap :=
  if ptrNonNull then
    match h.callbackData with
    | none => Except.error JniFault.useAfterFree
    | some d => Except.ok (h.release d)
  else Except.ok h

/-- The function `ARNETWORK_JNIManager_Callback_t`.  `envNonNull` tells
whether the virtual machine is known and `GetEnv` yields an environment,
`customDataNonNull` whether `customData` is non-NULL; `javaCallback` is the
Java method `callback`, from the buffer id, `jARData` and the status to its
answer. -/
def ARNETWORK_JNIManager_Callback_t (h : JniHeap) (envNonNull customDataNonNull : Bool)
    (javaCallback : Int → Nat → eARNETWORK_MANAGER_CALLBACK_STATUS → Int)
    (IOBufferID : Int) (status : eARNETWORK_MANAGER_CALLBACK_STATUS) :
    Except JniFault (eARNETWORK_MANAGER_CALLBACK_RETURN × JniHeap) :=
  if envNonNull = true ∧ customDataNonNull = true then
    match h.callbackData with
    | none => Except.error JniFault.useAfterFree
    | some d =>
      if d.jManager ≠ 0 then
        let callbackReturn :=
          eARNETWORK_MANAGER_CALLBACK_RETURN.fromJava (javaCallback IOBufferID d.jARData status)
        match status with
        | .ARNETWORK_MANAGER_CALLBACK_STATUS_FREE =>
          match ARNETWORK_JNIManager_FreeCallbackData h customDataNonNull with
          | Except.error f => Except.error f
          | Except.ok h2 => Except.ok (callbackReturn, h2)
        | _ => Except.ok (callbackReturn, h)
      else Except.ok (.ARNETWORK_MANAGER_CALLBACK_RETURN_DEFAULT, h)
  else Except.ok (.ARNETWORK_MANAGER_CALLBACK_RETURN_DEFAULT, h)

/-- The callbacks of one send without copy, one per status of the list, all
with the same non-NULL `customData` and a non-NULL environment; the answers of
the Java method are dropped. -/
def runCallbacks (javaCallback : Int → Nat → eARNETWORK_MANAGER_CALLBACK_STATUS → Int)
    (IOBufferID : Int) : JniHeap → List eARNETWORK_MANAGER_CALLBACK_STATUS →
    Except JniFault JniHeap
  | h, [] => Except.ok h
  | h, status :: rest =>
    match ARNETWORK_JNIManager_Callback_t h true true javaCallback IOBufferID status with
    | Except.error f => Except.error f
    | Except.ok r => runCallbacks javaCallback IOBufferID r.2 rest

/-! ## Sending data through the JNI binding -/

/-- What the Java side and the C library answer during one call of
`nativeSendData`. -/
structure SendDataEnv where
  /-- Whether `malloc` of the callback data returns non-NULL. -/
  callbackDataMallocOk : Bool
  /-- The function `NewGlobalRef`: the global reference made for an object. -/
  NewGlobalRef : Nat → Nat
  /-- The function `ARNETWORK_Manager_SendData`: from the buffer id, the data
  pointer, the data size, the callback data and `doDataCopy` to its error. -/
  ARNETWORK_Manager_SendData :
    Int → Int → Int → Option ARNETWORK_JNIManager_CallbackData_t → Int → eARNETWORK_ERROR

/-- What a terminated call of `nativeSendData` did. -/
structure SendDataResult where
  /-- The value returned. -/
  error : eARNETWORK_ERROR
  /-- The callback data handed to the manager, `none` for NULL. -/
  callbackData : Option ARNETWORK_JNIManager_CallbackData_t
  /-- The global references created. -/
  globalRefs : List Nat
  /-- Whether `ARNETWORK_Manager_SendData` was called. -/
  sendDataCalled : Bool
deriving DecidableEq, Repr

/-- The function `Java_com_parrot_arsdk_arnetwork_ARNetworkManager_nativeSendData`;
`obj` and `ARData` are the Java objects of the call. -/
def nativeSendData (env : SendDataEnv) (obj : Nat) (inputBufferID : Int) (ARData : Nat)
    (jdataPtr dataSize doDataCopy : Int) : Except JniFault SendDataResult :=
  if doDataCopy = 0 then
    -- allocate the data sent to the callback
    let error : eARNETWORK_ERROR :=
      if env.callbackDataMallocOk then .ARNETWORK_OK else .ARNETWORK_ERROR_ALLOC
    -- the global references are stored whatever `error` is: through NULL when
    -- the allocation failed
    if env.callbackDataMallocOk then
      let cb : ARNETWORK_JNIManager_CallbackData_t :=
        { jManager := env.NewGlobalRef obj, jARData := env.NewGlobalRef ARData }
      if error = .ARNETWORK_OK then
        Except.ok
          { error := env.ARNETWORK_Manager_SendData inputBufferID jdataPtr dataSize (some cb)
              doDataCopy
            callbackData := some cb
            globalRefs := [cb.jManager, cb.jARData]
            sendDataCalled := true }
      else
        Except.ok { error := error, callbackData := some cb
                    globalRefs := [cb.jManager, cb.jARData], sendDataCalled := false }
    else Except.error JniFault.nullCallbackDataWrite
  else
    Except.ok
      { error := env.ARNETWORK_Manager_SendData inputBufferID jdataPtr dataSize none doDataCopy
        callbackData := none
        globalRefs := []
        sendDataCalled := true }

/-! ## Example senders -/

/-- The element "A": one cell holding the byte 65. -/
def cellA : Cell := [65]

/-- A stream with id 1 that needs acknowledgements, with a configured wait
time of 5 and a ring of capacity 4 holding only "A". -/
def ackStreamA : InOutBuffer :=
  { id := 1, needAck := 1, sendingWaitTime := 5, isWaitAck := 0, seqWaitAck := 0,
    waitTimeCount := 0, pBuffer := { buffSize := 4, buffCellSize := 1, cells := [cellA] } }

/-- A sender with the single stream `ackStreamA` and a staging area of 10
bytes. -/
def senderA : Sender :=
  { isAlive := 1, sleepTime := 1, inputBufferNum := 1, pptab_inputBuffer := [ackStreamA],
    pSendingBuffer := { buffSize := 10, buffCellSize := 1, pFront := 0, staged := [] } }

/-- The thread state in which `runSendingThread` enters its loop on
`senderA`. -/
def threadA : SendingThread :=
  { pSender := senderA, seq := 0, trace := [] }

/-- The sender `senderA` with a staging area that is already full. -/
def senderFull : Sender :=
  { senderA with
      pSendingBuffer := { buffSize := 10, buffCellSize := 1, pFront := 10, staged := [] } }

/-- The thread state entering a tick on `senderFull`. -/
def threadFull : SendingThread :=
  { pSender := senderFull, seq := 0, trace := [] }

/-- The stream `ackStreamA` with a countdown of 3 still to run. -/
def countingStream : InOutBuffer :=
  { ackStreamA with waitTimeCount := 3 }

/-- The thread state entering a tick on a sender whose only stream is
`countingStream`. -/
def threadCounting : SendingThread :=
  { pSender := { senderA with pptab_inputBuffer := [countingStream] }, seq := 0, trace := [] }

/-- The parameters of two streams without acknowledgement, given to
`newSender` in ascending order of id: id 1 first, id 2 second. -/
def paramsTwo : List ParamNewInOutBuffer :=
  [{ id := 1, needAck := 0, sendingWaitTime := 0, buffSize := 4, buffCellSize := 1 },
   { id := 2, needAck := 0, sendingWaitTime := 0, buffSize := 4, buffCellSize := 1 }]

/-- Every stream of the sender gets one element pushed: the byte of its own
id. -/
def loadEveryStream (s : Sender) : Sender :=
  { s with
      pptab_inputBuffer := s.pptab_inputBuffer.map (fun b =>
        { b with pBuffer := (ringBuffPushBack b.pBuffer [b.id.toNat]).2 }) }

/-- The parameters of the single stream of the scenarios: id 1, needs
acknowledgements, capacity 4. -/
def paramsOne : List ParamNewInOutBuffer :=
  [{ id := 1, needAck := 1, sendingWaitTime := 0, buffSize := 4, buffCellSize := 1 }]

/-- An allocation outcome in which only `newInOutBuffer` fails. -/
def allocInOutFails : SenderAlloc :=
  { senderOk := true, tableOk := true, inOutOk := fun _ => false, bufferOk := true }

/-- A call of `nativeNew` in which the class is found, the input array is
allocated and `malloc` of the output array returns NULL; the Java output array
holds one parameter. -/
def envOutputAllocFails : NativeNewEnv Nat :=
  { classFound := true, inputMallocOk := true, outputMallocOk := false,
    inputParamArray := [], outputParamArray := [7],
    ARNETWORK_Manager_New := fun _ _ _ _ => (42, eARNETWORK_ERROR.ARNETWORK_OK) }

/-- The element "B": one cell holding the byte 66. -/
def cellB : Cell := [66]

/-- A stream with id 3 without acknowledgement whose ring holds "A" then
"B". -/
def noAckStream : InOutBuffer :=
  { id := 3, needAck := 0, sendingWaitTime := 0, isWaitAck := 0, seqWaitAck := 0,
    waitTimeCount := 0,
    pBuffer := { buffSize := 4, buffCellSize := 1, cells := [cellA, cellB] } }

/-- The thread state entering a tick on a sender whose only stream is
`noAckStream`, with a staging area of 10 bytes. -/
def threadNoAck : SendingThread :=
  { pSender := { senderA with pptab_inputBuffer := [noAckStream] }, seq := 0, trace := [] }

/-- The sender `newSender` builds from `paramsTwo` with a staging area of 10
bytes: the stream with id 2 is at table index 0, the stream with id 1 at table
index 1. -/
def senderTwo : Sender :=
  { isAlive := 1, sleepTime := 1, inputBufferNum := 2,
    pptab_inputBuffer :=
      [{ id := 2, needAck := 0, sendingWaitTime := 0, isWaitAck := 0, seqWaitAck := 0,
         waitTimeCount := 0, pBuffer := newRingBuffer 4 1 },
       { id := 1, needAck := 0, sendingWaitTime := 0, isWaitAck := 0, seqWaitAck := 0,
         waitTimeCount := 0, pBuffer := newRingBuffer 4 1 }],
    pSendingBuffer := { buffSize := 10, buffCellSize := 1, pFront := 0, staged := [] } }

/-- The thread state entering a tick on `senderTwo` after one element was
pushed to each of its streams. -/
def threadTwo : SendingThread :=
  { pSender := loadEveryStream senderTwo, seq := 0, trace := [] }

/-- The value `newSender` returns for `paramsTwo` when no allocation fails:
`senderTwo` with its pointers. -/
def rawSenderTwo : RawSender :=
  { isAlive := senderTwo.isAlive, sleepTime := senderTwo.sleepTime,
    inputBufferNum := senderTwo.inputBufferNum,
    pptab_inputBuffer := senderTwo.pptab_inputBuffer.map some,
    pSendingBuffer := some senderTwo.pSendingBuffer }

/-- A heap holding the callback data of one send without copy: the global
references 7 (the manager) and 8 (the data). -/
def heapOneSend : JniHeap :=
  { callbackData := some { jManager := 7, jARData := 8 }
    globalRefs := [7, 8], deletedRefs := [], freeCount := 0 }

/-- A Java method `callback` that always answers 0. -/
def javaAnswersZero : Int → Nat → eARNETWORK_MANAGER_CALLBACK_STATUS → Int :=
  fun _ _ _ => 0

/-- A call of `nativeSendData` in which `malloc` of the callback data returns
NULL; `NewGlobalRef` numbers the global reference of object `o` as `o + 100`
and the manager would accept the data. -/
def envCallbackDataAllocFails : SendDataEnv :=
  { callbackDataMallocOk := false
    NewGlobalRef := fun o => o + 100
    ARNETWORK_Manager_SendData := fun _ _ _ _ _ => eARNETWORK_ERROR.ARNETWORK_OK }

theorem senderAddToBuffer_table (s : Sender) (b : InOutBuffer) (q : Int) :
    (senderAddToBuffer s b q).2.pptab_inputBuffer = s.pptab_inputBuffer := by
  unfold senderAddToBuffer
  split
  · split <;> rfl
  · rfl

theorem senderAddToBuffer_num (s : Sender) (b : InOutBuffer) (q : Int) :
    (senderAddToBuffer s b q).2.inputBufferNum = s.inputBufferNum := by
  unfold senderAddToBuffer
  split
  · split <;> rfl
  · rfl

theorem senderAddToBuffer_isAlive (s : Sender) (b : InOutBuffer) (q : Int) :
    (senderAddToBuffer s b q).2.isAlive = s.isAlive := by
  unfold senderAddToBuffer
  split
  · split <;> rfl
  · rfl

/-- Without room in the staging area `senderAddToBuffer` fails and changes
nothing. -/
theorem senderAddToBuffer_full (s : Sender) (b : InOutBuffer) (q : Int)
    (h : bufferGetFreeCellNb s.pSendingBuffer < b.pBuffer.buffCellSize) :
    senderAddToBuffer s b q = (1, s) := by
  unfold senderAddToBuffer
  rw [if_neg (by omega)]

/-- With room and a non-empty ring `senderAddToBuffer` succeeds: the front
cell is appended to the staged cells and the write position advances. -/
theorem senderAddToBuffer_room (s : Sender) (b : InOutBuffer) (q : Int) (e : Cell)
    (rest : List Cell) (hc : b.pBuffer.cells = e :: rest)
    (h : b.pBuffer.buffCellSize ≤ bufferGetFreeCellNb s.pSendingBuffer) :
    senderAddToBuffer s b q =
      (0, { s with
              pSendingBuffer :=
                { s.pSendingBuffer with
                    staged := s.pSendingBuffer.staged ++ [e]
                    pFront := s.pSendingBuffer.pFront + b.pBuffer.buffCellSize } }) := by
  unfold senderAddToBuffer
  rw [if_pos h]
  simp [ringBuffFront, hc]

/-- The error code of `senderAddToBuffer` is 0 or 1. -/
theorem senderAddToBuffer_error (s : Sender) (b : InOutBuffer) (q : Int) :
    (senderAddToBuffer s b q).1 = 0 ∨ (senderAddToBuffer s b q).1 = 1 := by
  unfold senderAddToBuffer
  split
  · split <;> simp
  · simp

/-- The loop body at a buffer that is ready and whose staging succeeds. -/
theorem sendingLoopBody_staged (st : SendingThread) (i : Nat) (b : InOutBuffer)
    (hb : st.pSender.pptab_inputBuffer[i]? = some b)
    (hne : ringBuffIsEmpty b.pBuffer = false) (hw : b.isWaitAck = 0)
    (ht : b.waitTimeCount = 0)
    (hadd : (senderAddToBuffer st.pSender b st.seq).1 = 0) :
    sendingLoopBody st i =
      { pSender := (senderAddToBuffer st.pSender b st.seq).2.setInput i
          (if b.needAck ≠ 0 then { b with isWaitAck := 1, seqWaitAck := st.seq }
           else { b with pBuffer := (ringBuffPopFront b.pBuffer).2 })
        seq := st.seq + 1
        trace := st.trace ++
          [{ indexInput := i, id := b.id, cell := (ringBuffFront b.pBuffer).getD [],
             seq := st.seq }] } := by
  simp only [sendingLoopBody, hb]
  rw [if_pos ⟨hne, hw, ht⟩, if_pos hadd]

/-- The loop body at a buffer that is ready but cannot be staged. -/
theorem sendingLoopBody_failed (st : SendingThread) (i : Nat) (b : InOutBuffer)
    (hb : st.pSender.pptab_inputBuffer[i]? = some b)
    (hne : ringBuffIsEmpty b.pBuffer = false) (hw : b.isWaitAck = 0)
    (ht : b.waitTimeCount = 0)
    (hadd : (senderAddToBuffer st.pSender b st.seq).1 ≠ 0) :
    sendingLoopBody st i = st := by
  simp only [sendingLoopBody, hb]
  rw [if_pos ⟨hne, hw, ht⟩, if_neg hadd]

/-- The loop body at a buffer that is not ready: only the countdown moves. -/
theorem sendingLoopBody_skipped (st : SendingThread) (i : Nat) (b : InOutBuffer)
    (hb : st.pSender.pptab_inputBuffer[i]? = some b)
    (hskip : ¬ (ringBuffIsEmpty b.pBuffer = false ∧ b.isWaitAck = 0 ∧ b.waitTimeCount = 0)) :
    sendingLoopBody st i =
      if b.waitTimeCount ≠ 0 then
        { st with
            pSender := st.pSender.setInput i
              { b with waitTimeCount := b.waitTimeCount - 1 } }
      else st := by
  simp only [sendingLoopBody, hb]
  rw [if_neg hskip]

/-- The loop body changes no table entry but its own. -/
theorem sendingLoopBody_get_ne (st : SendingThread) (i j : Nat) (hij : i ≠ j) :
    (sendingLoopBody st i).pSender.pptab_inputBuffer[j]? =
      st.pSender.pptab_inputBuffer[j]? := by
  unfold sendingLoopBody
  split
  · rfl
  · split
    · split
      · simp [Sender.setInput, senderAddToBuffer_table, List.getElem?_set_ne hij]
      · rfl
    · split
      · simp [Sender.setInput, List.getElem?_set_ne hij]
      · rfl

theorem sendingLoopBody_num (st : SendingThread) (i : Nat) :
    (sendingLoopBody st i).pSender.inputBufferNum = st.pSender.inputBufferNum := by
  unfold sendingLoopBody
  split
  · rfl
  · split
    · split
      · simp [Sender.setInput, senderAddToBuffer_num]
      · rfl
    · split
      · simp [Sender.setInput]
      · rfl

theorem sendingLoopBody_isAlive (st : SendingThread) (i : Nat) :
    (sendingLoopBody st i).pSender.isAlive = st.pSender.isAlive := by
  unfold sendingLoopBody
  split
  · rfl
  · split
    · split
      · simp [Sender.setInput, senderAddToBuffer_isAlive]
      · rfl
    · split
      · simp [Sender.setInput]
      · rfl

theorem sendingLoopBody_length (st : SendingThread) (i : Nat) :
    (sendingLoopBody st i).pSender.pptab_inputBuffer.length =
      st.pSender.pptab_inputBuffer.length := by
  unfold sendingLoopBody
  split
  · rfl
  · split
    · split
      · simp [Sender.setInput, senderAddToBuffer_table]
      · rfl
    · split
      · simp [Sender.setInput]
      · rfl

theorem sendingLoopUpTo_num (st : SendingThread) (k : Nat) :
    (sendingLoopUpTo st k).pSender.inputBufferNum = st.pSender.inputBufferNum := by
  induction k with
  | zero => rfl
  | succ k ih => simp [sendingLoopUpTo, sendingLoopBody_num, ih]

theorem sendingLoopUpTo_isAlive (st : SendingThread) (k : Nat) :
    (sendingLoopUpTo st k).pSender.isAlive = st.pSender.isAlive := by
  induction k with
  | zero => rfl
  | succ k ih => simp [sendingLoopUpTo, sendingLoopBody_isAlive, ih]

theorem sendingLoopUpTo_length (st : SendingThread) (k : Nat) :
    (sendingLoopUpTo st k).pSender.pptab_inputBuffer.length =
      st.pSender.pptab_inputBuffer.length := by
  induction k with
  | zero => rfl
  | succ k ih => simp [sendingLoopUpTo, sendingLoopBody_length, ih]

/-- Before its turn a buffer is as it was when the tick began. -/
theorem sendingLoopUpTo_get_ge (st : SendingThread) (k j : Nat) (h : k ≤ j) :
    (sendingLoopUpTo st k).pSender.pptab_inputBuffer[j]? =
      st.pSender.pptab_inputBuffer[j]? := by
  induction k with
  | zero => rfl
  | succ k ih =>
    simp only [sendingLoopUpTo]
    rw [sendingLoopBody_get_ne _ _ _ (by omega), ih (by omega)]

/-- After its turn a buffer is no longer touched during the tick. -/
theorem sendingLoopUpTo_get_lt (st : SendingThread) (k j : Nat) (h : j < k) :
    (sendingLoopUpTo st k).pSender.pptab_inputBuffer[j]? =
      (sendingLoopUpTo st (j + 1)).pSender.pptab_inputBuffer[j]? := by
  induction k with
  | zero => omega
  | succ k ih =>
    rcases Nat.lt_or_ge j k with hlt | hge
    · simp only [sendingLoopUpTo]
      rw [sendingLoopBody_get_ne _ _ _ (by omega)]
      exact ih hlt
    · have : j = k := by omega
      subst this
      rfl

theorem tick_table (st : SendingThread) :
    (tick st).pSender.pptab_inputBuffer =
      (sendingLoopUpTo st st.pSender.inputBufferNum).pSender.pptab_inputBuffer := rfl

theorem tick_seq (st : SendingThread) :
    (tick st).seq = (sendingLoopUpTo st st.pSender.inputBufferNum).seq := rfl

theorem tick_trace (st : SendingThread) :
    (tick st).trace = (sendingLoopUpTo st st.pSender.inputBufferNum).trace := rfl

theorem tick_num (st : SendingThread) :
    (tick st).pSender.inputBufferNum = st.pSender.inputBufferNum := by
  simp [tick, senderSend, sendingLoopUpTo_num]

/-- The buffer of index `i` after a tick is what its own turn left. -/
theorem tick_get (st : SendingThread) (i : Nat) (hi : i < st.pSender.inputBufferNum) :
    (tick st).pSender.pptab_inputBuffer[i]? =
      (sendingLoopBody (sendingLoopUpTo st i) i).pSender.pptab_inputBuffer[i]? := by
  rw [tick_table, sendingLoopUpTo_get_lt _ _ _ hi]
  rfl

/-! ## C1: staging an element of a stream that needs acknowledgements -/

/-- C1 (claim as stated, refuted): on `senderA` the stream is ready, its
configured wait time is 5 and staging "A" succeeds with `seq = 0`; after the
tick the stream waits for the acknowledgement of 0 and "A" is still in the
ring, but `waitTimeCount` is still 0: no countdown was started. -/
theorem needAck_staging_starts_no_countdown :
    ackStreamA.needAck ≠ 0 ∧ ringBuffIsEmpty ackStreamA.pBuffer = false ∧
    ackStreamA.isWaitAck = 0 ∧ ackStreamA.waitTimeCount = 0 ∧
    ackStreamA.sendingWaitTime = 5 ∧
    (sendingLoopUpTo threadA 0).pSender.pptab_inputBuffer[0]? = some ackStreamA ∧
    (senderAddToBuffer (sendingLoopUpTo threadA 0).pSender ackStreamA
      (sendingLoopUpTo threadA 0).seq).1 = 0 ∧
    (tick threadA).pSender.pptab_inputBuffer[0]? =
      some { ackStreamA with isWaitAck := 1, seqWaitAck := 0 } ∧
    ¬ (∃ b, (tick threadA).pSender.pptab_inputBuffer[0]? = some b ∧
        b.waitTimeCount = b.sendingWaitTime ∧ b.waitTimeCount ≠ 0) := by
  decide

/-- C1 (amended): in a tick, a buffer with `needAck` set that at its turn is
non-empty, not waiting and has `waitTimeCount = 0`, and whose front element is
staged successfully while the counter has the value `seq`, is after the tick
waiting (`isWaitAck = 1`) with `seqWaitAck = seq`; its ring is unchanged (the
front element is not popped) and every other field, `waitTimeCount` included,
is unchanged: the countdown is left at 0. -/
theorem needAck_staging_marks_waiting (st : SendingThread) (i : Nat) (b : InOutBuffer)
    (hi : i < st.pSender.inputBufferNum)
    (hb : (sendingLoopUpTo st i).pSender.pptab_inputBuffer[i]? = some b)
    (hack : b.needAck ≠ 0) (hne : ringBuffIsEmpty b.pBuffer = false)
    (hw : b.isWaitAck = 0) (ht : b.waitTimeCount = 0)
    (hadd : (senderAddToBuffer (sendingLoopUpTo st i).pSender b
      (sendingLoopUpTo st i).seq).1 = 0) :
    ∃ b2, (tick st).pSender.pptab_inputBuffer[i]? = some b2 ∧
      b2 = { b with isWaitAck := 1, seqWaitAck := (sendingLoopUpTo st i).seq } ∧
      b2.isWaitAck = 1 ∧ b2.seqWaitAck = (sendingLoopUpTo st i).seq ∧
      b2.pBuffer = b.pBuffer ∧ ringBuffFront b2.pBuffer = ringBuffFront b.pBuffer ∧
      b2.waitTimeCount = 0 := by
  refine ⟨{ b with isWaitAck := 1, seqWaitAck := (sendingLoopUpTo st i).seq }, ?_,
    rfl, rfl, rfl, rfl, rfl, ht⟩
  rw [tick_get st i hi, sendingLoopBody_staged _ i b hb hne hw ht hadd, if_pos hack]
  have hlen : i < (sendingLoopUpTo st i).pSender.pptab_inputBuffer.length := by
    rcases List.getElem?_eq_some_iff.mp hb with ⟨h, _⟩
    exact h
  simp [Sender.setInput, senderAddToBuffer_table, List.getElem?_set_self hlen]

/-- C1 (amended), on `senderA`: after the first tick the stream waits for the
acknowledgement of 0, "A" is still at the front and the countdown is 0. -/
theorem needAck_staging_marks_waiting_witness :
    ∃ b2, (tick threadA).pSender.pptab_inputBuffer[0]? = some b2 ∧
      b2 = { ackStreamA with isWaitAck := 1, seqWaitAck := 0 } ∧
      b2.isWaitAck = 1 ∧ b2.seqWaitAck = 0 ∧
      b2.pBuffer = ackStreamA.pBuffer ∧
      ringBuffFront b2.pBuffer = some cellA ∧ b2.waitTimeCount = 0 :=
  needAck_staging_marks_waiting threadA 0 ackStreamA (by decide) (by decide) (by decide)
    (by decide) (by decide) (by decide) (by decide)

/-! ## C6: no room in the staging area -/

/-- C6: when the staging area has fewer free cells than the cell size of the
input ring, `senderAddToBuffer` returns a non-zero error and leaves the sender
(staging contents and write position included) as it was; in every tick in
which this happens at the turn of buffer `i`, that turn leaves `seq`, the
staging area and the list of stagings unchanged, and after the tick the ring
of the buffer (so its front element), `isWaitAck` and `seqWaitAck` are what
they were. -/
theorem senderAddToBuffer_no_room (s : Sender) (b : InOutBuffer) (q : Int)
    (hfull : bufferGetFreeCellNb s.pSendingBuffer < b.pBuffer.buffCellSize) :
    (senderAddToBuffer s b q).1 ≠ 0 ∧ (senderAddToBuffer s b q).2 = s ∧
    ∀ (st : SendingThread) (i : Nat), i < st.pSender.inputBufferNum →
      (sendingLoopUpTo st i).pSender = s → (sendingLoopUpTo st i).seq = q →
      (sendingLoopUpTo st i).pSender.pptab_inputBuffer[i]? = some b →
      (sendingLoopUpTo st (i + 1)).seq = q ∧
      (sendingLoopUpTo st (i + 1)).pSender.pSendingBuffer = s.pSendingBuffer ∧
      (sendingLoopUpTo st (i + 1)).trace = (sendingLoopUpTo st i).trace ∧
      ∃ b2, (tick st).pSender.pptab_inputBuffer[i]? = some b2 ∧
        b2.pBuffer = b.pBuffer ∧ ringBuffFront b2.pBuffer = ringBuffFront b.pBuffer ∧
        b2.isWaitAck = b.isWaitAck ∧ b2.seqWaitAck = b.seqWaitAck := by
  have hadd := senderAddToBuffer_full s b q hfull
  refine ⟨by simp [hadd], by simp [hadd], ?_⟩
  intro st i hi hs hq hb
  have hlen : i < (sendingLoopUpTo st i).pSender.pptab_inputBuffer.length :=
    (List.getElem?_eq_some_iff.mp hb).1
  rw [tick_get st i hi]
  simp only [sendingLoopUpTo]
  by_cases hready : ringBuffIsEmpty b.pBuffer = false ∧ b.isWaitAck = 0 ∧ b.waitTimeCount = 0
  · have hfail : (senderAddToBuffer (sendingLoopUpTo st i).pSender b
        (sendingLoopUpTo st i).seq).1 ≠ 0 := by
      rw [hs, hq, hadd]; simp
    rw [sendingLoopBody_failed _ i b hb hready.1 hready.2.1 hready.2.2 hfail]
    exact ⟨hq, by rw [hs], rfl, b, hb, rfl, rfl, rfl, rfl⟩
  · rw [sendingLoopBody_skipped _ i b hb hready]
    split
    · refine ⟨hq, by simp [Sender.setInput, hs], rfl,
        { b with waitTimeCount := b.waitTimeCount - 1 }, ?_, rfl, rfl, rfl, rfl⟩
      simp [Sender.setInput, List.getElem?_set_self hlen]
    · exact ⟨hq, by rw [hs], rfl, b, hb, rfl, rfl, rfl, rfl⟩

/-- C6 on `senderFull`: the staging area is full, staging "A" fails, and after
the tick "A" is still at the front of a stream that waits for nothing, with
`seq` still 0. -/
theorem senderAddToBuffer_no_room_witness :
    bufferGetFreeCellNb senderFull.pSendingBuffer < ackStreamA.pBuffer.buffCellSize ∧
    (senderAddToBuffer senderFull ackStreamA 0).1 ≠ 0 ∧
    (senderAddToBuffer senderFull ackStreamA 0).2 = senderFull ∧
    (sendingLoopUpTo threadFull 1).seq = 0 ∧
    ∃ b2, (tick threadFull).pSender.pptab_inputBuffer[0]? = some b2 ∧
      ringBuffFront b2.pBuffer = some cellA ∧ b2.isWaitAck = 0 ∧ b2.seqWaitAck = 0 := by
  have h := senderAddToBuffer_no_room senderFull ackStreamA 0 (by decide)
  obtain ⟨h1, h2, h3⟩ := h
  obtain ⟨hq, _, _, b2, hb2, hr, hf, hw, hs⟩ := h3 threadFull 0 (by decide) rfl rfl (by decide)
  exact ⟨by decide, h1, h2, hq, b2, hb2, by rw [hf]; decide, by rw [hw]; decide,
    by rw [hs]; decide⟩

/-! ## C7: buffers that are skipped -/

/-- C7: in a tick, a buffer that at its turn is empty, or is waiting for an
acknowledgement, or has a positive countdown is skipped: its turn leaves
`seq`, the staging area and the list of stagings unchanged; after the tick its
ring, `isWaitAck` and `seqWaitAck` are unchanged, and its `waitTimeCount` is
one less when it was positive and still 0 when it was 0, so it is not negative
when it was not negative. -/
theorem skipped_buffer_only_counts_down (st : SendingThread) (i : Nat) (b : InOutBuffer)
    (hi : i < st.pSender.inputBufferNum)
    (hb : (sendingLoopUpTo st i).pSender.pptab_inputBuffer[i]? = some b)
    (hskip : ringBuffIsEmpty b.pBuffer = true ∨ b.isWaitAck ≠ 0 ∨ 0 < b.waitTimeCount) :
    (sendingLoopUpTo st (i + 1)).seq = (sendingLoopUpTo st i).seq ∧
    (sendingLoopUpTo st (i + 1)).pSender.pSendingBuffer =
      (sendingLoopUpTo st i).pSender.pSendingBuffer ∧
    (sendingLoopUpTo st (i + 1)).trace = (sendingLoopUpTo st i).trace ∧
    ∃ b2, (tick st).pSender.pptab_inputBuffer[i]? = some b2 ∧
      b2.pBuffer = b.pBuffer ∧ b2.isWaitAck = b.isWaitAck ∧ b2.seqWaitAck = b.seqWaitAck ∧
      (0 < b.waitTimeCount → b2.waitTimeCount = b.waitTimeCount - 1) ∧
      (b.waitTimeCount = 0 → b2.waitTimeCount = 0) ∧
      (0 ≤ b.waitTimeCount → 0 ≤ b2.waitTimeCount) := by
  have hlen : i < (sendingLoopUpTo st i).pSender.pptab_inputBuffer.length :=
    (List.getElem?_eq_some_iff.mp hb).1
  have hnot : ¬ (ringBuffIsEmpty b.pBuffer = false ∧ b.isWaitAck = 0 ∧ b.waitTimeCount = 0) := by
    rintro ⟨h1, h2, h3⟩
    rcases hskip with h | h | h
    · rw [h1] at h; exact Bool.noConfusion h
    · exact h h2
    · omega
  rw [tick_get st i hi]
  simp only [sendingLoopUpTo]
  rw [sendingLoopBody_skipped _ i b hb hnot]
  split
  · refine ⟨rfl, by simp [Sender.setInput], rfl,
      { b with waitTimeCount := b.waitTimeCount - 1 }, ?_, rfl, rfl, rfl, ?_, ?_, ?_⟩
    · simp [Sender.setInput, List.getElem?_set_self hlen]
    · intro _; rfl
    · intro h0; simp_all
    · intro h0; show 0 ≤ b.waitTimeCount - 1; omega
  · rename_i hz
    have hz0 : b.waitTimeCount = 0 := by simpa using hz
    exact ⟨rfl, rfl, rfl, b, hb, rfl, rfl, rfl, fun h => by omega, fun _ => hz0,
      fun h => h⟩

/-- C7 on a stream with a countdown of 3: the tick stages nothing, leaves the
ring and the waiting state alone and brings the countdown to 2. -/
theorem skipped_buffer_only_counts_down_witness :
    (sendingLoopUpTo threadCounting 1).seq = 0 ∧
    (sendingLoopUpTo threadCounting 1).trace = [] ∧
    ∃ b2, (tick threadCounting).pSender.pptab_inputBuffer[0]? = some b2 ∧
      b2.pBuffer = countingStream.pBuffer ∧ b2.isWaitAck = 0 ∧ b2.waitTimeCount = 2 := by
  obtain ⟨hq, _, htr, b2, hb2, hr, hw, _, hc, _, _⟩ :=
    skipped_buffer_only_counts_down threadCounting 0 countingStream (by decide) (by decide)
      (Or.inr (Or.inr (by decide)))
  exact ⟨hq, htr, b2, hb2, hr, by rw [hw]; decide, by rw [hc (by decide)]; decide⟩

/-! ## C2, C3: acknowledgements -/

/-- With distinct ids the lookup by id finds the buffer that carries the
id. -/
theorem inOutBufferWithId_of_nodup (tab : List InOutBuffer) (num k : Nat) (b : InOutBuffer)
    (hnd : (tab.map (fun c => c.id)).Nodup) (hk : k < num)
    (hb : tab[k]? = some b) :
    inOutBufferWithId tab num b.id = some k := by
  obtain ⟨hlen, hget⟩ := List.getElem?_eq_some_iff.mp hb
  have hklen : k < (tab.take num).length := by
    simp only [List.length_take]; omega
  have hfind : (tab.take num).findIdx (fun c => c.id == b.id) = k := by
    rw [List.findIdx_eq hklen]
    constructor
    · simp [List.getElem_take, hget]
    · intro j hj
      have hjlen : j < tab.length := by omega
      simp only [List.getElem_take, beq_eq_false_iff_ne, ne_eq]
      intro hid
      have hmap : (tab.map (fun c => c.id))[j]? = (tab.map (fun c => c.id))[k]? := by
        simp [List.getElem?_map, List.getElem?_eq_getElem hjlen, List.getElem?_eq_getElem hlen,
          hid, hget]
      exact (List.nodup_iff_getElem?_ne_getElem?.mp hnd j k hj (by simpa using hlen)) hmap
  unfold inOutBufferWithId
  simp only [hfind]
  rw [if_pos hklen]

/-- What `senderTransmitAck` does to the buffer the lookup finds. -/
theorem senderTransmitAck_found (s : Sender) (id seqNum : Int) (k : Nat) (b : InOutBuffer)
    (hfind : inOutBufferWithId s.pptab_inputBuffer s.inputBufferNum id = some k)
    (hb : s.pptab_inputBuffer[k]? = some b) :
    senderTransmitAck s id seqNum =
      s.setInput k { (inOutBufferTransmitAck b seqNum) with
        pBuffer := (ringBuffPopFront (inOutBufferTransmitAck b seqNum).pBuffer).2 } := by
  simp only [senderTransmitAck, hfind, hb]

theorem ringBuffPopFront_cells (r : RingBuffer) :
    (ringBuffPopFront r).2 = { r with cells := r.cells.tail } := by
  unfold ringBuffPopFront
  cases h : r.cells with
  | nil => simp; cases r; simp_all
  | cons e rest => simp

theorem inOutBufferTransmitAck_pBuffer (b : InOutBuffer) (q : Int) :
    (inOutBufferTransmitAck b q).pBuffer = b.pBuffer := by
  unfold inOutBufferTransmitAck
  split <;> rfl

/-- The lookup by id finds the first buffer of the table that carries the
id. -/
theorem inOutBufferWithId_of_first (tab : List InOutBuffer) (num k : Nat) (b : InOutBuffer)
    (hk : k < num) (hb : tab[k]? = some b)
    (hfirst : ∀ j, j < k → ∀ c, tab[j]? = some c → c.id ≠ b.id) :
    inOutBufferWithId tab num b.id = some k := by
  obtain ⟨hlen, hget⟩ := List.getElem?_eq_some_iff.mp hb
  have hklen : k < (tab.take num).length := by
    simp only [List.length_take]; omega
  have hfind : (tab.take num).findIdx (fun c => c.id == b.id) = k := by
    rw [List.findIdx_eq hklen]
    constructor
    · simp [List.getElem_take, hget]
    · intro j hj
      have hjlen : j < tab.length := by omega
      simp only [List.getElem_take, beq_eq_false_iff_ne, ne_eq]
      exact hfirst j hj tab[j] (List.getElem?_eq_getElem hjlen)
  unfold inOutBufferWithId
  simp only [hfind]
  rw [if_pos hklen]

/-- With distinct ids every buffer is the first of the table that carries its
id. -/
theorem first_with_id_of_nodup (tab : List InOutBuffer) (k : Nat) (b : InOutBuffer)
    (hnd : (tab.map (fun c => c.id)).Nodup) (hb : tab[k]? = some b) :
    ∀ j, j < k → ∀ c, tab[j]? = some c → c.id ≠ b.id := by
  intro j hj c hc hid
  obtain ⟨hlen, hget⟩ := List.getElem?_eq_some_iff.mp hb
  have hmap : (tab.map (fun c => c.id))[j]? = (tab.map (fun c => c.id))[k]? := by
    simp [List.getElem?_map, hc, hb, hid]
  exact (List.nodup_iff_getElem?_ne_getElem?.mp hnd j k hj (by simpa using hlen)) hmap

/-- A matching acknowledgement for the buffer the lookup finds: the front of
its ring is popped, `isWaitAck` is cleared, and nothing else changes. -/
theorem senderTransmitAck_first_match (s : Sender) (k : Nat) (b : InOutBuffer)
    (i seqNo : Int) (hk : k < s.inputBufferNum) (hb : s.pptab_inputBuffer[k]? = some b)
    (hfirst : ∀ j, j < k → ∀ c, s.pptab_inputBuffer[j]? = some c → c.id ≠ i)
    (hid : b.id = i) (hw : b.isWaitAck = 1) (hs : b.seqWaitAck = seqNo) :
    senderTransmitAck s i seqNo =
      s.setInput k
        { b with isWaitAck := 0
                 pBuffer := { b.pBuffer with cells := b.pBuffer.cells.tail } } := by
  have hfind := inOutBufferWithId_of_first s.pptab_inputBuffer s.inputBufferNum k b hk hb
    (by rw [hid]; exact hfirst)
  rw [hid] at hfind
  have hack : inOutBufferTransmitAck b seqNo = { b with isWaitAck := 0 } := by
    unfold inOutBufferTransmitAck
    rw [if_pos ⟨by rw [hw]; decide, hs⟩]
  rw [senderTransmitAck_found s i seqNo k b hfind hb, hack, ringBuffPopFront_cells]

/-- The case of distinct ids: a matching acknowledgement pops the front of the
ring of the one buffer that carries the id, clears its `isWaitAck`, and
changes nothing else. -/
theorem senderTransmitAck_distinct_ids (s : Sender) (k : Nat) (b : InOutBuffer)
    (i seqNo : Int) (hnd : (s.pptab_inputBuffer.map (fun c => c.id)).Nodup)
    (hk : k < s.inputBufferNum) (hb : s.pptab_inputBuffer[k]? = some b)
    (hid : b.id = i) (hw : b.isWaitAck = 1) (hs : b.seqWaitAck = seqNo) :
    senderTransmitAck s i seqNo =
      s.setInput k
        { b with isWaitAck := 0
                 pBuffer := { b.pBuffer with cells := b.pBuffer.cells.tail } } :=
  senderTransmitAck_first_match s k b i seqNo hk hb
    (by rw [← hid]; exact first_with_id_of_nodup s.pptab_inputBuffer k b hnd hb) hid hw hs

/-- C3 (the code at the failing input): after the first tick on `senderA` the
stream with id 1 waits for the acknowledgement of 0 with "A" at the front of
its ring.  The acknowledgement `(1, 5)` of another sequence number leaves the
stream waiting for 0, yet "A" is popped: the ring is empty afterwards. -/
theorem senderTransmitAck_stale_ack_pops :
    (tick threadA).pSender.pptab_inputBuffer =
      [{ ackStreamA with isWaitAck := 1, seqWaitAck := 0 }] ∧
    (senderTransmitAck (tick threadA).pSender 1 5).pptab_inputBuffer =
      [{ ackStreamA with isWaitAck := 1, seqWaitAck := 0
                         pBuffer := { ackStreamA.pBuffer with cells := [] } }] := by
  decide

/-! ## The stagings of a tick -/

/-- One turn of the loop either stages nothing and leaves `seq` and the
staging area alone, or stages the front cell of its buffer: one event is
recorded, the cell is appended to the staged cells and `seq` advances by
one. -/
theorem sendingLoopBody_cases (st : SendingThread) (j : Nat) :
    ((sendingLoopBody st j).trace = st.trace ∧ (sendingLoopBody st j).seq = st.seq ∧
      (sendingLoopBody st j).pSender.pSendingBuffer = st.pSender.pSendingBuffer) ∨
    ∃ b e, st.pSender.pptab_inputBuffer[j]? = some b ∧ ringBuffFront b.pBuffer = some e ∧
      (sendingLoopBody st j).trace =
        st.trace ++ [{ indexInput := j, id := b.id, cell := e, seq := st.seq }] ∧
      (sendingLoopBody st j).seq = st.seq + 1 ∧
      (sendingLoopBody st j).pSender.pSendingBuffer.staged =
        st.pSender.pSendingBuffer.staged ++ [e] ∧
      (sendingLoopBody st j).pSender.pSendingBuffer.pFront =
        st.pSender.pSendingBuffer.pFront + b.pBuffer.buffCellSize := by
  cases hb : st.pSender.pptab_inputBuffer[j]? with
  | none => left; simp [sendingLoopBody, hb]
  | some b =>
    by_cases hready : ringBuffIsEmpty b.pBuffer = false ∧ b.isWaitAck = 0 ∧ b.waitTimeCount = 0
    · by_cases hadd : (senderAddToBuffer st.pSender b st.seq).1 = 0
      · right
        obtain ⟨hne, hw, ht⟩ := hready
        cases hc : b.pBuffer.cells with
        | nil => simp [ringBuffIsEmpty, hc] at hne
        | cons e rest =>
          have hroom : b.pBuffer.buffCellSize ≤ bufferGetFreeCellNb st.pSender.pSendingBuffer := by
            by_contra hlt
            rw [senderAddToBuffer_full st.pSender b st.seq (by omega)] at hadd
            simp at hadd
          have hfront : ringBuffFront b.pBuffer = some e := by simp [ringBuffFront, hc]
          refine ⟨b, e, rfl, hfront, ?_, ?_, ?_, ?_⟩
          · rw [sendingLoopBody_staged st j b hb hne hw ht hadd, hfront]; rfl
          · rw [sendingLoopBody_staged st j b hb hne hw ht hadd]
          · rw [sendingLoopBody_staged st j b hb hne hw ht hadd,
              senderAddToBuffer_room st.pSender b st.seq e rest hc hroom]
            rfl
          · rw [sendingLoopBody_staged st j b hb hne hw ht hadd,
              senderAddToBuffer_room st.pSender b st.seq e rest hc hroom]
            rfl
      · left
        rw [sendingLoopBody_failed st j b hb hready.1 hready.2.1 hready.2.2 hadd]
        exact ⟨rfl, rfl, rfl⟩
    · left
      rw [sendingLoopBody_skipped st j b hb hready]
      split
      · exact ⟨rfl, rfl, rfl⟩
      · exact ⟨rfl, rfl, rfl⟩

theorem streamCells_append (i : Nat) (tr1 tr2 : List StageEvent) :
    streamCells i (tr1 ++ tr2) = streamCells i tr1 ++ streamCells i tr2 := by
  simp [streamCells]

/-- A turn of another buffer stages nothing of the stream of index `i`. -/
theorem streamCells_body_ne (st : SendingThread) (i j : Nat) (hij : j ≠ i) :
    streamCells i (sendingLoopBody st j).trace = streamCells i st.trace := by
  rcases sendingLoopBody_cases st j with h | ⟨b, e, _, _, h, _⟩
  · rw [h.1]
  · rw [h, streamCells_append]
    simp [streamCells, hij]

theorem streamCells_upTo_ge (st : SendingThread) (i k : Nat) (h : k ≤ i) :
    streamCells i (sendingLoopUpTo st k).trace = streamCells i st.trace := by
  induction k with
  | zero => rfl
  | succ k ih =>
    simp only [sendingLoopUpTo]
    rw [streamCells_body_ne _ _ _ (by omega), ih (by omega)]

theorem streamCells_upTo_lt (st : SendingThread) (i k : Nat) (h : i < k) :
    streamCells i (sendingLoopUpTo st k).trace =
      streamCells i (sendingLoopUpTo st (i + 1)).trace := by
  induction k with
  | zero => omega
  | succ k ih =>
    rcases Nat.lt_or_ge i k with hlt | hge
    · simp only [sendingLoopUpTo]
      rw [streamCells_body_ne _ _ _ (by omega)]
      exact ih hlt
    · have : i = k := by omega
      subst this
      rfl

/-- What a tick stages of the stream of index `i` is what the turn of that
stream stages. -/
theorem streamCells_tick (st : SendingThread) (i : Nat) (hi : i < st.pSender.inputBufferNum) :
    streamCells i (tick st).trace =
      streamCells i (sendingLoopBody (sendingLoopUpTo st i) i).trace := by
  rw [tick_trace, streamCells_upTo_lt _ _ _ hi]
  rfl

/-- A tick on a stream without acknowledgement that is ready and finds room:
the front cell is staged and popped. -/
theorem tick_noAck_step (st : SendingThread) (i : Nat) (b : InOutBuffer) (e : Cell)
    (rest : List Cell) (hi : i < st.pSender.inputBufferNum)
    (hb : st.pSender.pptab_inputBuffer[i]? = some b)
    (hack : b.needAck = 0) (hw : b.isWaitAck = 0) (ht : b.waitTimeCount = 0)
    (hc : b.pBuffer.cells = e :: rest)
    (hroom : b.pBuffer.buffCellSize ≤
      bufferGetFreeCellNb (sendingLoopUpTo st i).pSender.pSendingBuffer) :
    (tick st).pSender.pptab_inputBuffer[i]? =
      some { b with pBuffer := { b.pBuffer with cells := rest } } ∧
    streamCells i (tick st).trace = streamCells i st.trace ++ [e] := by
  have hb2 : (sendingLoopUpTo st i).pSender.pptab_inputBuffer[i]? = some b := by
    rw [sendingLoopUpTo_get_ge _ _ _ (Nat.le_refl i)]; exact hb
  have hlen : i < (sendingLoopUpTo st i).pSender.pptab_inputBuffer.length :=
    (List.getElem?_eq_some_iff.mp hb2).1
  have hne : ringBuffIsEmpty b.pBuffer = false := by simp [ringBuffIsEmpty, hc]
  have hadd := senderAddToBuffer_room (sendingLoopUpTo st i).pSender b
    (sendingLoopUpTo st i).seq e rest hc hroom
  have hbody := sendingLoopBody_staged (sendingLoopUpTo st i) i b hb2 hne hw ht
    (by rw [hadd])
  constructor
  · rw [tick_get st i hi, hbody]
    simp [Sender.setInput, hadd, hack, List.getElem?_set_self hlen, ringBuffPopFront, hc]
  · rw [streamCells_tick st i hi, hbody, streamCells_append,
      streamCells_upTo_ge _ _ _ (Nat.le_refl i)]
    simp [streamCells, ringBuffFront, hc]

/-- A tick leaves a waiting stream whose countdown is 0 exactly as it is and
stages nothing of it. -/
theorem tick_waiting_frozen (st : SendingThread) (i : Nat) (b : InOutBuffer)
    (hi : i < st.pSender.inputBufferNum)
    (hb : st.pSender.pptab_inputBuffer[i]? = some b)
    (hw : b.isWaitAck ≠ 0) (ht : b.waitTimeCount = 0) :
    (tick st).pSender.pptab_inputBuffer[i]? = some b ∧
    streamCells i (tick st).trace = streamCells i st.trace := by
  have hb2 : (sendingLoopUpTo st i).pSender.pptab_inputBuffer[i]? = some b := by
    rw [sendingLoopUpTo_get_ge _ _ _ (Nat.le_refl i)]; exact hb
  have hbody := sendingLoopBody_skipped (sendingLoopUpTo st i) i b hb2
    (fun h => hw h.2.1)
  rw [if_neg (by simp [ht])] at hbody
  constructor
  · rw [tick_get st i hi, hbody]; exact hb2
  · rw [streamCells_tick st i hi, hbody, streamCells_upTo_ge _ _ _ (Nat.le_refl i)]

theorem iterate_tick_num (st : SendingThread) (n : Nat) :
    (tick^[n] st).pSender.inputBufferNum = st.pSender.inputBufferNum := by
  induction n with
  | zero => rfl
  | succ n ih => rw [Function.iterate_succ_apply', tick_num, ih]

/-- Once a stream waits with a countdown of 0, any number of ticks leaves it
as it is and stages nothing of it. -/
theorem iterate_tick_waiting_frozen (st : SendingThread) (i : Nat) (b : InOutBuffer)
    (hi : i < st.pSender.inputBufferNum)
    (hb : st.pSender.pptab_inputBuffer[i]? = some b)
    (hw : b.isWaitAck ≠ 0) (ht : b.waitTimeCount = 0) (n : Nat) :
    (tick^[n] st).pSender.pptab_inputBuffer[i]? = some b ∧
    streamCells i (tick^[n] st).trace = streamCells i st.trace := by
  induction n with
  | zero => exact ⟨hb, rfl⟩
  | succ n ih =>
    rw [Function.iterate_succ_apply']
    have hstep := tick_waiting_frozen (tick^[n] st) i b
      (by rw [iterate_tick_num]; exact hi) ih.1 hw ht
    exact ⟨hstep.1, by rw [hstep.2, ih.2]⟩

/-- The first tick stages the front element of a ready stream that needs
acknowledgements; every later tick leaves the stream waiting, with the element
still in its ring, and stages nothing more of it. -/
theorem unacked_stream_after_ticks (st : SendingThread) (i : Nat) (b : InOutBuffer)
    (e : Cell) (hi : i < st.pSender.inputBufferNum)
    (hb : (sendingLoopUpTo st i).pSender.pptab_inputBuffer[i]? = some b)
    (hack : b.needAck ≠ 0) (he : ringBuffFront b.pBuffer = some e)
    (hw : b.isWaitAck = 0) (ht : b.waitTimeCount = 0)
    (hadd : (senderAddToBuffer (sendingLoopUpTo st i).pSender b
      (sendingLoopUpTo st i).seq).1 = 0) (n : Nat) :
    (tick^[n + 1] st).pSender.pptab_inputBuffer[i]? =
      some { b with isWaitAck := 1, seqWaitAck := (sendingLoopUpTo st i).seq } ∧
    streamCells i (tick^[n + 1] st).trace = streamCells i st.trace ++ [e] := by
  have hlen : i < (sendingLoopUpTo st i).pSender.pptab_inputBuffer.length :=
    (List.getElem?_eq_some_iff.mp hb).1
  have hne : ringBuffIsEmpty b.pBuffer = false := by
    cases hc : b.pBuffer.cells with
    | nil => simp [ringBuffFront, hc] at he
    | cons x xs => simp [ringBuffIsEmpty, hc]
  have hbody := sendingLoopBody_staged (sendingLoopUpTo st i) i b hb hne hw ht hadd
  have h1 : (tick st).pSender.pptab_inputBuffer[i]? =
      some { b with isWaitAck := 1, seqWaitAck := (sendingLoopUpTo st i).seq } := by
    rw [tick_get st i hi, hbody, if_pos hack]
    simp [Sender.setInput, senderAddToBuffer_table, List.getElem?_set_self hlen]
  have h2 : streamCells i (tick st).trace = streamCells i st.trace ++ [e] := by
    rw [streamCells_tick st i hi, hbody, streamCells_append,
      streamCells_upTo_ge _ _ _ (Nat.le_refl i)]
    simp [streamCells, he]
  have hfrozen := iterate_tick_waiting_frozen (tick st) i
    { b with isWaitAck := 1, seqWaitAck := (sendingLoopUpTo st i).seq }
    (by rw [tick_num]; exact hi) h1 (by simp) ht n
  rw [Function.iterate_succ_apply]
  exact ⟨hfrozen.1, by rw [hfrozen.2, h2]⟩

/-! ## C4: streams without acknowledgement are served first in, first out -/

/-- C4: a buffer with `needAck = 0`, `isWaitAck = 0` and `waitTimeCount = 0`
whose ring holds `e1 .. en`, and `k` successive ticks at each of which the
staging area has room at the turn of the buffer, `k ≤ n`.  After `j ≤ k` ticks
the cells of the stream copied to staging are exactly `e1 .. ej` in that
order and the ring holds `e(j+1) .. en`; tick `j + 1` stages exactly the one
cell `e(j+1)` and pops it in the same tick; `isWaitAck` is 0 after every one
of those ticks. -/
theorem noAck_stream_fifo (st : SendingThread) (i : Nat) (b : InOutBuffer) (k : Nat)
    (hi : i < st.pSender.inputBufferNum)
    (hb : st.pSender.pptab_inputBuffer[i]? = some b)
    (hack : b.needAck = 0) (hw : b.isWaitAck = 0) (ht : b.waitTimeCount = 0)
    (hk : k ≤ b.pBuffer.cells.length)
    (hroom : ∀ j, j < k → b.pBuffer.buffCellSize ≤
      bufferGetFreeCellNb (sendingLoopUpTo (tick^[j] st) i).pSender.pSendingBuffer) :
    (∀ j, j ≤ k →
      ∃ b2, (tick^[j] st).pSender.pptab_inputBuffer[i]? = some b2 ∧
        b2 = { b with pBuffer := { b.pBuffer with cells := b.pBuffer.cells.drop j } } ∧
        b2.pBuffer.cells = b.pBuffer.cells.drop j ∧ b2.isWaitAck = 0 ∧
        streamCells i (tick^[j] st).trace =
          streamCells i st.trace ++ b.pBuffer.cells.take j) ∧
    (∀ j, j < k →
      ∃ e, b.pBuffer.cells[j]? = some e ∧
        streamCells i (tick^[j + 1] st).trace = streamCells i (tick^[j] st).trace ++ [e]) := by
  have main : ∀ j, j ≤ k →
      (tick^[j] st).pSender.pptab_inputBuffer[i]? =
        some { b with pBuffer := { b.pBuffer with cells := b.pBuffer.cells.drop j } } ∧
      streamCells i (tick^[j] st).trace =
        streamCells i st.trace ++ b.pBuffer.cells.take j := by
    intro j
    induction j with
    | zero => intro _; exact ⟨by simpa using hb, by simp⟩
    | succ j ih =>
      intro hj
      obtain ⟨ihb, iht⟩ := ih (by omega)
      have hjlen : j < b.pBuffer.cells.length := by omega
      have hdrop : b.pBuffer.cells.drop j =
          b.pBuffer.cells[j] :: b.pBuffer.cells.drop (j + 1) :=
        List.drop_eq_getElem_cons hjlen
      have hstep := tick_noAck_step (tick^[j] st) i
        { b with pBuffer := { b.pBuffer with cells := b.pBuffer.cells.drop j } }
        b.pBuffer.cells[j] (b.pBuffer.cells.drop (j + 1))
        (by rw [iterate_tick_num]; exact hi) ihb hack hw ht hdrop (hroom j (by omega))
      rw [Function.iterate_succ_apply']
      refine ⟨hstep.1, ?_⟩
      rw [hstep.2, iht, List.take_succ, List.getElem?_eq_getElem hjlen]
      simp
  constructor
  · intro j hj
    exact ⟨_, (main j hj).1, rfl, rfl, hw, (main j hj).2⟩
  · intro j hj
    have hjlen : j < b.pBuffer.cells.length := by omega
    refine ⟨b.pBuffer.cells[j], List.getElem?_eq_getElem hjlen, ?_⟩
    rw [(main (j + 1) (by omega)).2, (main j (by omega)).2, List.take_succ,
      List.getElem?_eq_getElem hjlen]
    simp

/-- C4 on a stream holding "A" then "B": after two ticks the cells staged are
"A", "B" in that order, the ring is empty and the stream waits for
nothing. -/
theorem noAck_stream_fifo_witness :
    ∃ b2, (tick^[2] threadNoAck).pSender.pptab_inputBuffer[0]? = some b2 ∧
      b2.pBuffer.cells = [] ∧ b2.isWaitAck = 0 ∧
      streamCells 0 (tick^[2] threadNoAck).trace = [cellA, cellB] := by
  obtain ⟨b2, h1, _, h3, h4, h5⟩ :=
    (noAck_stream_fifo threadNoAck 0 noAckStream 2 (by decide) (by decide) (by decide)
      (by decide) (by decide) (by decide)
      (by intro j hj; interval_cases j <;> decide)).1 2 (Nat.le_refl 2)
  exact ⟨b2, h1, by rw [h3]; decide, h4, by rw [h5]; decide⟩

/-! ## C5: an element that is never acknowledged -/

/-- C5 (claim as stated, refuted): on `senderA`, where the stream needs
acknowledgements and none arrives, however many ticks are run "A" is never
staged three times (it is staged once, by the first tick), and "A" is never
removed: the ring holds "A" after every number of ticks, and from the first
tick on the stream is waiting. -/
theorem unacked_element_never_retried_nor_dropped :
    (∀ n, (streamCells 0 (tick^[n] threadA).trace).count cellA ≠ 3) ∧
    (∀ n, streamCells 0 (tick^[n + 1] threadA).trace = [cellA]) ∧
    (∀ n, ∃ b, (tick^[n] threadA).pSender.pptab_inputBuffer[0]? = some b ∧
      b.pBuffer.cells = [cellA]) ∧
    (∀ n, ∃ b, (tick^[n + 1] threadA).pSender.pptab_inputBuffer[0]? = some b ∧
      b.isWaitAck = 1) := by
  have h := unacked_stream_after_ticks threadA 0 ackStreamA cellA (by decide) (by decide)
    (by decide) (by decide) (by decide) (by decide) (by decide)
  refine ⟨?_, ?_, ?_, ?_⟩
  · intro n
    cases n with
    | zero => decide
    | succ n => rw [(h n).2]; decide
  · intro n
    rw [(h n).2]; decide
  · intro n
    cases n with
    | zero => exact ⟨ackStreamA, by decide, by decide⟩
    | succ n => exact ⟨_, (h n).1, by decide⟩
  · intro n
    exact ⟨_, (h n).1, rfl⟩

/-- C5 (amended): a stream that needs acknowledgements, is ready at its turn
and whose front element `e` is staged successfully by a tick, and to which no
acknowledgement is delivered: after that tick and after every later tick the
stream is waiting (`isWaitAck = 1`) for the sequence number of that staging,
its ring is unchanged with `e` still at the front, and `e` has been staged
exactly once: there is no retry and the element is never dropped. -/
theorem unacked_element_staged_once (st : SendingThread) (i : Nat) (b : InOutBuffer)
    (e : Cell) (hi : i < st.pSender.inputBufferNum)
    (hb : (sendingLoopUpTo st i).pSender.pptab_inputBuffer[i]? = some b)
    (hack : b.needAck ≠ 0) (he : ringBuffFront b.pBuffer = some e)
    (hw : b.isWaitAck = 0) (ht : b.waitTimeCount = 0)
    (hadd : (senderAddToBuffer (sendingLoopUpTo st i).pSender b
      (sendingLoopUpTo st i).seq).1 = 0) (n : Nat) :
    ∃ b2, (tick^[n + 1] st).pSender.pptab_inputBuffer[i]? = some b2 ∧
      b2.isWaitAck = 1 ∧ b2.seqWaitAck = (sendingLoopUpTo st i).seq ∧
      b2.pBuffer = b.pBuffer ∧ ringBuffFront b2.pBuffer = some e ∧
      streamCells i (tick^[n + 1] st).trace = streamCells i st.trace ++ [e] := by
  have h := unacked_stream_after_ticks st i b e hi hb hack he hw ht hadd n
  exact ⟨_, h.1, rfl, rfl, rfl, he, h.2⟩

/-- C5 (amended) on `senderA`: after 10 ticks without acknowledgement "A" has
been staged once, is still at the front of its ring, and the stream waits for
the acknowledgement of 0. -/
theorem unacked_element_staged_once_witness :
    ∃ b2, (tick^[10] threadA).pSender.pptab_inputBuffer[0]? = some b2 ∧
      b2.isWaitAck = 1 ∧ b2.seqWaitAck = 0 ∧
      b2.pBuffer = ackStreamA.pBuffer ∧ ringBuffFront b2.pBuffer = some cellA ∧
      streamCells 0 (tick^[10] threadA).trace = [cellA] :=
  unacked_element_staged_once threadA 0 ackStreamA cellA (by decide) (by decide)
    (by decide) (by decide) (by decide) (by decide) (by decide) 9

/-! ## C8: the order in which a tick serves the streams -/

/-- The stagings of the turns `0 .. k - 1` of a tick: they are appended to the
list of stagings, `seq` advances by their number, their cells are appended to
the staged cells in the same order, each of them carries the id of the buffer
at its table index and a value of `seq` of this tick, and they are ordered by
table index and by `seq`. -/
theorem sendingLoopUpTo_events (st : SendingThread) (k : Nat) :
    ∃ evs : List StageEvent,
      (sendingLoopUpTo st k).trace = st.trace ++ evs ∧
      (sendingLoopUpTo st k).seq = st.seq + evs.length ∧
      (sendingLoopUpTo st k).pSender.pSendingBuffer.staged =
        st.pSender.pSendingBuffer.staged ++ evs.map (fun e => e.cell) ∧
      (∀ e ∈ evs, e.indexInput < k ∧ st.seq ≤ e.seq ∧ e.seq < st.seq + evs.length ∧
        (st.pSender.pptab_inputBuffer[e.indexInput]?).map (fun c => c.id) = some e.id) ∧
      evs.Pairwise (fun e1 e2 => e1.indexInput < e2.indexInput ∧ e1.seq < e2.seq) := by
  induction k with
  | zero => exact ⟨[], by simp [sendingLoopUpTo]⟩
  | succ k ih =>
    obtain ⟨evs, htr, hseq, hst, hmem, hpw⟩ := ih
    simp only [sendingLoopUpTo]
    rcases sendingLoopBody_cases (sendingLoopUpTo st k) k with h | ⟨b, e, hb, _, h1, h2, h3, _⟩
    · refine ⟨evs, by rw [h.1, htr], by rw [h.2.1, hseq], by rw [h.2.2, hst], ?_, hpw⟩
      intro e he
      obtain ⟨a1, a2, a3, a4⟩ := hmem e he
      exact ⟨by omega, a2, a3, a4⟩
    · rw [sendingLoopUpTo_get_ge _ _ _ (Nat.le_refl k)] at hb
      refine ⟨evs ++ [⟨k, b.id, e, (sendingLoopUpTo st k).seq⟩], ?_, ?_, ?_, ?_, ?_⟩
      · rw [h1, htr, List.append_assoc]
      · rw [h2, hseq]; simp; omega
      · rw [h3, hst]; simp
      · intro e2 he2
        rcases List.mem_append.mp he2 with he2 | he2
        · obtain ⟨a1, a2, a3, a4⟩ := hmem e2 he2
          refine ⟨by omega, a2, ?_, a4⟩
          simp; omega
        · have : e2 = ⟨k, b.id, e, (sendingLoopUpTo st k).seq⟩ := by simpa using he2
          subst this
          refine ⟨by simp, by simp [hseq], by simp [hseq], by simp [hb]⟩
      · rw [List.pairwise_append]
        refine ⟨hpw, by simp, ?_⟩
        intro e1 he1 e2 he2
        have : e2 = ⟨k, b.id, e, (sendingLoopUpTo st k).seq⟩ := by simpa using he2
        subst this
        obtain ⟨a1, _, a3, _⟩ := hmem e1 he1
        exact ⟨a1, by simp [hseq]; omega⟩

/-- The stagings of one tick, as in `sendingLoopUpTo_events`. -/
theorem tickEvents_spec (st : SendingThread) :
    (tick st).trace = st.trace ++ tickEvents st ∧
    (tick st).seq = st.seq + (tickEvents st).length ∧
    (tick st).pSender.pSendingBuffer.staged =
      st.pSender.pSendingBuffer.staged ++ (tickEvents st).map (fun e => e.cell) ∧
    (∀ e ∈ tickEvents st, e.indexInput < st.pSender.inputBufferNum ∧ st.seq ≤ e.seq ∧
      e.seq < st.seq + (tickEvents st).length ∧
      (st.pSender.pptab_inputBuffer[e.indexInput]?).map (fun c => c.id) = some e.id) ∧
    (tickEvents st).Pairwise
      (fun e1 e2 => e1.indexInput < e2.indexInput ∧ e1.seq < e2.seq) := by
  obtain ⟨evs, htr, hseq, hst, hmem, hpw⟩ := sendingLoopUpTo_events st st.pSender.inputBufferNum
  have hev : tickEvents st = evs := by
    unfold tickEvents
    rw [tick_trace, htr, List.drop_left]
  rw [hev]
  exact ⟨htr, hseq, hst, hmem, hpw⟩

theorem allValid_cons {α : Type} (o : Option α) (rest : List (Option α)) (l : List α)
    (h : allValid (o :: rest) = some l) :
    ∃ a l2, o = some a ∧ allValid rest = some l2 ∧ l = a :: l2 := by
  cases o with
  | none => simp [allValid] at h
  | some a =>
    cases hr : allValid rest with
    | none => simp [allValid, hr] at h
    | some l2 =>
      simp [allValid, hr] at h
      exact ⟨a, l2, rfl, rfl, h.symm⟩

theorem newInOutBuffer_id (ok : Bool) (p : ParamNewInOutBuffer) (b : InOutBuffer)
    (h : newInOutBuffer ok p = some b) : b.id = p.id := by
  unfold newInOutBuffer at h
  split at h
  · cases h; rfl
  · cases h

/-- The loop of `newSender` stores the buffers in the reverse of the order of
the arguments. -/
theorem newSenderFill_ids (ok : Nat → Bool) (params : List ParamNewInOutBuffer) :
    ∀ (j : Nat) (filled : List (Option InOutBuffer)) (tab : List InOutBuffer),
      allValid (newSenderFill ok j params filled) = some tab →
      ∃ ftab, allValid filled = some ftab ∧
        tab.map (fun c => c.id) =
          (params.map (fun p => p.id)).reverse ++ ftab.map (fun c => c.id) := by
  induction params with
  | nil =>
    intro j filled tab h
    exact ⟨tab, h, by simp⟩
  | cons p rest ih =>
    intro j filled tab h
    simp only [newSenderFill] at h
    obtain ⟨ftab, hf, hids⟩ := ih (j + 1) _ tab h
    obtain ⟨a, l2, ha, hl2, hft⟩ := allValid_cons _ _ _ hf
    refine ⟨l2, hl2, ?_⟩
    rw [hids, hft]
    simp [newInOutBuffer_id _ _ _ ha]

/-- The table of a sender built by `newSender` lists the ids in the reverse of
the order of the arguments, and `inputBufferNum` is the number of
arguments. -/
theorem newSender_table_ids (alloc : SenderAlloc) (size : Nat)
    (params : List ParamNewInOutBuffer) (r : RawSender) (s0 : Sender)
    (hnew : newSender alloc size params = some r) (hs0 : r.toSender = some s0) :
    s0.pptab_inputBuffer.map (fun c => c.id) = (params.map (fun p => p.id)).reverse ∧
    s0.inputBufferNum = params.length := by
  unfold newSender at hnew
  split at hnew
  · split at hnew
    · split at hnew
      · cases hnew
      · cases hnew
        unfold RawSender.toSender at hs0
        split at hs0
        · rename_i tab buf htab _
          cases hs0
          obtain ⟨ftab, hf, hids⟩ := newSenderFill_ids alloc.inOutOk params 0 [] tab htab
          simp [allValid] at hf
          subst hf
          exact ⟨by simpa using hids, rfl⟩
        · cases hs0
    · cases hnew
  · cases hnew

/-- C8 (claim as stated, refuted): `newSender` is given the parameters of the
stream with id 1, then those of the stream with id 2; one element is pushed to
each stream (the byte of its id) and one tick is run with `seq = 0`.  Both
streams are staged in that tick, and the element of id 2 is staged first, with
sequence number 0; the element of id 1 comes second, with sequence number
1. -/
theorem tick_serves_larger_id_first :
    ((newSender SenderAlloc.allOk 10 paramsTwo).bind RawSender.toSender).map
        (fun s => tickEvents { pSender := loadEveryStream s, seq := 0, trace := [] }) =
      some [{ indexInput := 0, id := 2, cell := [2], seq := 0 },
            { indexInput := 1, id := 1, cell := [1], seq := 1 }] ∧
    ((newSender SenderAlloc.allOk 10 paramsTwo).bind RawSender.toSender).map
        (fun s => (tick { pSender := loadEveryStream s, seq := 0,
                          trace := [] }).pSender.pSendingBuffer.staged) =
      some [[2], [1]] := by
  decide

/-- C8 (amended): take a sender built by `newSender` from parameters with
distinct ids, in any later state (same ids in the same table entries).  One
tick serves the input buffers in table order, which is the reverse of the
order of the arguments of `newSender`: of two elements staged in the same
tick, the one placed first in the staging area belongs to the stream whose
parameters came later in the argument list, and it receives the smaller
sequence number.  The ids play no role. -/
theorem tick_serves_in_reverse_argument_order (alloc : SenderAlloc) (size : Nat)
    (params : List ParamNewInOutBuffer) (r : RawSender) (s0 : Sender) (st : SendingThread)
    (hnd : (params.map (fun p => p.id)).Nodup)
    (hnew : newSender alloc size params = some r) (hs0 : r.toSender = some s0)
    (hids : st.pSender.pptab_inputBuffer.map (fun c => c.id) =
      s0.pptab_inputBuffer.map (fun c => c.id))
    (hnum : st.pSender.inputBufferNum = s0.inputBufferNum) :
    (tick st).pSender.pSendingBuffer.staged =
      st.pSender.pSendingBuffer.staged ++ (tickEvents st).map (fun e => e.cell) ∧
    (tickEvents st).Pairwise (fun e1 e2 =>
      (params.map (fun p => p.id)).indexOf e2.id <
        (params.map (fun p => p.id)).indexOf e1.id ∧
      e1.seq < e2.seq) := by
  obtain ⟨htab, hlen⟩ := newSender_table_ids alloc size params r s0 hnew hs0
  obtain ⟨_, _, hst, hmem, hpw⟩ := tickEvents_spec st
  refine ⟨hst, ?_⟩
  have hpos : ∀ e ∈ tickEvents st, e.indexInput < params.length ∧
      (params.map (fun p => p.id)).indexOf e.id = params.length - 1 - e.indexInput := by
    intro e he
    obtain ⟨a1, _, _, a4⟩ := hmem e he
    have hx : e.indexInput < params.length := by omega
    refine ⟨hx, ?_⟩
    have h1 : (st.pSender.pptab_inputBuffer.map (fun c => c.id))[e.indexInput]? = some e.id := by
      rw [List.getElem?_map]; exact a4
    rw [hids, htab, List.getElem?_reverse (by simpa using hx)] at h1
    have hlt : (params.map (fun p => p.id)).length - 1 - e.indexInput <
        (params.map (fun p => p.id)).length := by
      simp only [List.length_map]; omega
    rw [List.getElem?_eq_getElem hlt] at h1
    have h2 := List.indexOf_getElem hnd _ hlt
    rw [Option.some.inj h1] at h2
    simpa using h2
  refine (List.Pairwise.and_mem.mp hpw).imp ?_
  intro e1 e2 h
  obtain ⟨he1, he2, hlt, hseq⟩ := h
  obtain ⟨hx1, hp1⟩ := hpos e1 he1
  obtain ⟨hx2, hp2⟩ := hpos e2 he2
  exact ⟨by rw [hp1, hp2]; omega, hseq⟩

/-- C8 (amended) on the two streams of `paramsTwo`, each holding one element:
`senderTwo` is the sender `newSender` builds; the stream with id 2, passed
second, is staged first and gets sequence number 0; the stream with id 1,
passed first, gets sequence number 1. -/
theorem tick_serves_in_reverse_argument_order_witness :
    (newSender SenderAlloc.allOk 10 paramsTwo).bind RawSender.toSender = some senderTwo ∧
    tickEvents threadTwo =
      [{ indexInput := 0, id := 2, cell := [2], seq := 0 },
       { indexInput := 1, id := 1, cell := [1], seq := 1 }] ∧
    (tickEvents threadTwo).Pairwise (fun e1 e2 =>
      (paramsTwo.map (fun p => p.id)).indexOf e2.id <
        (paramsTwo.map (fun p => p.id)).indexOf e1.id ∧
      e1.seq < e2.seq) :=
  ⟨by decide, by decide,
    (tick_serves_in_reverse_argument_order SenderAlloc.allOk 10 paramsTwo rawSenderTwo senderTwo
      threadTwo (by decide) (by decide) (by decide) (by decide) (by decide)).2⟩

/-! ## C9: `newSender` and failed allocations -/

/-- The allocations `newSender` checks: when `malloc` of the sender, `malloc`
of the table or `newBuffer` fails, NULL is returned. -/
theorem newSender_checked_allocations (alloc : SenderAlloc) (size : Nat)
    (params : List ParamNewInOutBuffer)
    (h : alloc.senderOk = false ∨ alloc.tableOk = false ∨ alloc.bufferOk = false) :
    newSender alloc size params = none := by
  unfold newSender newBuffer
  rcases h with h | h | h <;> simp [h]

/-- C9 (the code at the failing input): one stream is asked for and
`newInOutBuffer` returns NULL while every other allocation succeeds.
`newSender` returns a sender, not NULL, whose only table entry is NULL. -/
theorem newSender_keeps_null_input_buffer :
    newSender allocInOutFails 10 paramsOne =
      some { isAlive := 1, sleepTime := 1, inputBufferNum := 1,
             pptab_inputBuffer := [none],
             pSendingBuffer :=
               some { buffSize := 10, buffCellSize := 1, pFront := 0, staged := [] } } ∧
    (newSender allocInOutFails 10 paramsOne).bind RawSender.toSender = none := by
  decide

/-! ## C10: `nativeNew` and failed allocations -/

/-- The allocation of the input array is checked against `numberOfInput`:
when it fails with a non-zero count the call ends with `ARNETWORK_ERROR_ALLOC`,
copies nothing, does not call `ARNETWORK_Manager_New` and returns 0. -/
theorem nativeNew_input_alloc_checked {P : Type} (env : NativeNewEnv P)
    (numberOfInput numberOfOutput : Int) (hc : env.classFound = true)
    (hin : env.inputMallocOk = false) (hn : numberOfInput ≠ 0) :
    nativeNew env numberOfInput numberOfOutput =
      Except.ok { error := eARNETWORK_ERROR.ARNETWORK_ERROR_ALLOC, inputCopied := [],
                  outputCopied := [], managerNewCalled := false, handle := 0 } := by
  simp [nativeNew, hc, hin, hn, pure, Except.pure, bind, Except.bind]

/-- C10 (the code at the failing input): `numberOfInput = 0`,
`numberOfOutput = 1` and `malloc` of the output array returns NULL.  The test
after that `malloc` reads `numberOfInput`, so no error is raised and the copy
loop stores the first output parameter through the NULL array, instead of
ending with `ARNETWORK_ERROR_ALLOC` and the handle 0. -/
theorem nativeNew_output_alloc_unchecked :
    envOutputAllocFails.outputMallocOk = false ∧
    nativeNew envOutputAllocFails 0 1 = Except.error NativeFault.nullOutputArrayWrite :=
  ⟨rfl, rfl⟩

/-! ## C12: stopping the sender -/

theorem senderAddToBuffer_stopSender (s : Sender) (b : InOutBuffer) (q : Int) :
    senderAddToBuffer (stopSender s) b q =
      ((senderAddToBuffer s b q).1, stopSender (senderAddToBuffer s b q).2) := by
  unfold senderAddToBuffer
  by_cases h : bufferGetFreeCellNb s.pSendingBuffer ≥ b.pBuffer.buffCellSize
  · have h2 : bufferGetFreeCellNb (stopSender s).pSendingBuffer ≥ b.pBuffer.buffCellSize := h
    rw [if_pos h, if_pos h2]
    cases ringBuffFront b.pBuffer <;> rfl
  · have h2 : ¬ bufferGetFreeCellNb (stopSender s).pSendingBuffer ≥ b.pBuffer.buffCellSize := h
    rw [if_neg h, if_neg h2]

/-- A turn of the loop and a stop request commute: the turn does not look at
`isAlive` and the request touches nothing else. -/
theorem sendingLoopBody_stopRequest (st : SendingThread) (i : Nat) :
    sendingLoopBody (stopRequest st) i = stopRequest (sendingLoopBody st i) := by
  cases hb : st.pSender.pptab_inputBuffer[i]? with
  | none =>
    have hb2 : (stopRequest st).pSender.pptab_inputBuffer[i]? = none := hb
    simp only [sendingLoopBody, hb, hb2]
  | some b =>
    have hb2 : (stopRequest st).pSender.pptab_inputBuffer[i]? = some b := hb
    have hadd2 : senderAddToBuffer (stopRequest st).pSender b (stopRequest st).seq =
        ((senderAddToBuffer st.pSender b st.seq).1,
          stopSender (senderAddToBuffer st.pSender b st.seq).2) :=
      senderAddToBuffer_stopSender st.pSender b st.seq
    by_cases hready : ringBuffIsEmpty b.pBuffer = false ∧ b.isWaitAck = 0 ∧ b.waitTimeCount = 0
    · by_cases hadd : (senderAddToBuffer st.pSender b st.seq).1 = 0
      · rw [sendingLoopBody_staged st i b hb hready.1 hready.2.1 hready.2.2 hadd,
          sendingLoopBody_staged (stopRequest st) i b hb2 hready.1 hready.2.1 hready.2.2
            (by rw [hadd2]; exact hadd), hadd2]
        rfl
      · rw [sendingLoopBody_failed st i b hb hready.1 hready.2.1 hready.2.2 hadd,
          sendingLoopBody_failed (stopRequest st) i b hb2 hready.1 hready.2.1 hready.2.2
            (by rw [hadd2]; exact hadd)]
    · rw [sendingLoopBody_skipped st i b hb hready,
        sendingLoopBody_skipped (stopRequest st) i b hb2 hready]
      split <;> rfl

theorem sendingLoopFrom_stopRequest (m : Nat) :
    ∀ (st : SendingThread) (k : Nat),
      sendingLoopFrom (stopRequest st) k m = stopRequest (sendingLoopFrom st k m) := by
  induction m with
  | zero => intro st k; rfl
  | succ m ih =>
    intro st k
    simp only [sendingLoopFrom]
    rw [sendingLoopBody_stopRequest, ih]

/-- Resuming the loop at `k` for `m` turns after its first `k` turns gives its
first `k + m` turns. -/
theorem sendingLoopFrom_upTo (st : SendingThread) (m : Nat) :
    ∀ k, sendingLoopFrom (sendingLoopUpTo st k) k m = sendingLoopUpTo st (k + m) := by
  induction m with
  | zero => intro k; rfl
  | succ m ih =>
    intro k
    simp only [sendingLoopFrom]
    have h := ih (k + 1)
    simp only [sendingLoopUpTo] at h
    rw [h]
    congr 1
    omega

theorem tick_eq_upTo (st : SendingThread) :
    tick st = sendingLoopUpTo st st.pSender.inputBufferNum := rfl

/-- A loop that finds `isAlive = 0` returns at once. -/
theorem runSendingLoop_not_alive (n : Nat) (st : SendingThread)
    (h : st.pSender.isAlive = 0) : runSendingLoop n st = st := by
  cases n with
  | zero => rfl
  | succ n => simp [runSendingLoop, h]

/-- A tick during which the stop request arrives is the tick followed by the
request. -/
theorem tickWithStopAt_eq (st : SendingThread) (k : Nat)
    (hk : k ≤ st.pSender.inputBufferNum) :
    tickWithStopAt st k = stopRequest (tick st) := by
  unfold tickWithStopAt
  simp only [senderSend]
  rw [sendingLoopFrom_stopRequest, sendingLoopFrom_upTo, tick_eq_upTo]
  have : k + (st.pSender.inputBufferNum - k) = st.pSender.inputBufferNum := by omega
  rw [this]

/-- C12: `stopSender` sets `isAlive` to 0 and changes no other field of the
sender, so no input buffer either; a loop that finds `isAlive = 0` performs no
tick and returns the state it found; and when `stopSender` is run by another
thread while a tick is in progress (at any `indexInput = k`), that tick runs
to its end exactly as it would have without the request, and the loop then
returns: no further tick modifies the buffers, the staging area or `seq`. -/
theorem stopSender_lets_tick_finish (st : SendingThread) (k n : Nat)
    (hk : k ≤ st.pSender.inputBufferNum) :
    (stopSender st.pSender).isAlive = 0 ∧
    (stopSender st.pSender).sleepTime = st.pSender.sleepTime ∧
    (stopSender st.pSender).inputBufferNum = st.pSender.inputBufferNum ∧
    (stopSender st.pSender).pptab_inputBuffer = st.pSender.pptab_inputBuffer ∧
    (stopSender st.pSender).pSendingBuffer = st.pSender.pSendingBuffer ∧
    (st.pSender.isAlive = 0 → runSendingLoop n st = st) ∧
    runSendingLoop n (stopRequest st) = stopRequest st ∧
    runSendingThread n (stopSender st.pSender) =
      { pSender := stopSender st.pSender, seq := 0, trace := [] } ∧
    tickWithStopAt st k = stopRequest (tick st) ∧
    (tickWithStopAt st k).seq = (tick st).seq ∧
    (tickWithStopAt st k).trace = (tick st).trace ∧
    (tickWithStopAt st k).pSender.pptab_inputBuffer = (tick st).pSender.pptab_inputBuffer ∧
    (tickWithStopAt st k).pSender.pSendingBuffer = (tick st).pSender.pSendingBuffer ∧
    runSendingLoop n (tickWithStopAt st k) = tickWithStopAt st k := by
  have heq := tickWithStopAt_eq st k hk
  refine ⟨rfl, rfl, rfl, rfl, rfl, fun h => runSendingLoop_not_alive n st h,
    runSendingLoop_not_alive n _ rfl, runSendingLoop_not_alive n _ rfl, heq, ?_, ?_, ?_, ?_, ?_⟩
  · rw [heq]; rfl
  · rw [heq]; rfl
  · rw [heq]; rfl
  · rw [heq]; rfl
  · rw [heq]; exact runSendingLoop_not_alive n _ rfl

/-- C12 on `threadTwo`, where both streams hold one element: the stop request
arrives when the first stream has been served; the second stream is still
served in that tick, and five more rounds of the loop change nothing. -/
theorem stopSender_lets_tick_finish_witness :
    (tickWithStopAt threadTwo 1).pSender.isAlive = 0 ∧
    (tickWithStopAt threadTwo 1).seq = 2 ∧
    (tickWithStopAt threadTwo 1).pSender.pSendingBuffer.staged = [[2], [1]] ∧
    runSendingLoop 5 (tickWithStopAt threadTwo 1) = tickWithStopAt threadTwo 1 := by
  have h := stopSender_lets_tick_finish threadTwo 1 5 (by decide)
  exact ⟨by decide, by decide, by decide, h.2.2.2.2.2.2.2.2.2.2.2.2.2⟩

/-! ## Properties kept by every turn, tick and run -/

/-- A property kept by every turn of the loop is kept by the first `k`
turns. -/
theorem sendingLoopUpTo_keeps (P : SendingThread → Prop)
    (hbody : ∀ st i, P st → P (sendingLoopBody st i)) (st : SendingThread) (h : P st) :
    ∀ k, P (sendingLoopUpTo st k) := by
  intro k
  induction k with
  | zero => exact h
  | succ k ih => exact hbody _ k ih

/-- A property kept by every turn of the loop is kept by every run of
`runSendingThread`. -/
theorem runSendingLoop_keeps (P : SendingThread → Prop)
    (hbody : ∀ st i, P st → P (sendingLoopBody st i)) :
    ∀ (n : Nat) (st : SendingThread), P st → P (runSendingLoop n st) := by
  intro n
  induction n with
  | zero => intro st h; exact h
  | succ n ih =>
    intro st h
    simp only [runSendingLoop]
    split
    · exact ih _ (by rw [tick_eq_upTo]; exact sendingLoopUpTo_keeps P hbody st h _)
    · exact h

/-- Running `m + j` rounds of the loop is running `m` rounds, then `j`. -/
theorem runSendingLoop_add (m j : Nat) :
    ∀ st : SendingThread,
      runSendingLoop (m + j) st = runSendingLoop j (runSendingLoop m st) := by
  induction m with
  | zero => intro st; simp [runSendingLoop]
  | succ m ih =>
    intro st
    have hsucc : m + 1 + j = (m + j) + 1 := by omega
    rw [hsucc]
    simp only [runSendingLoop]
    by_cases halive : st.pSender.isAlive ≠ 0
    · rw [if_pos halive, if_pos halive]
      exact ih _
    · rw [if_neg halive, if_neg halive]
      exact (runSendingLoop_not_alive j st (by simpa using halive)).symm

/-! ## C13: the sequence counter -/

/-- A turn keeps the sequence numbers of the stagings in order: if the
stagings so far carry 0, 1, 2, ... in staging order, `seq` is their number and
the staged cells are the initial ones followed by the cells of the stagings,
the same holds after the turn. -/
theorem sendingLoopBody_seq_in_order (staged0 : List Cell) (st : SendingThread) (i : Nat)
    (h : st.seq = st.trace.length ∧
      st.trace.map (fun e => e.seq) = (List.range st.trace.length).map Int.ofNat ∧
      st.pSender.pSendingBuffer.staged = staged0 ++ st.trace.map (fun e => e.cell)) :
    (sendingLoopBody st i).seq = (sendingLoopBody st i).trace.length ∧
    (sendingLoopBody st i).trace.map (fun e => e.seq) =
      (List.range (sendingLoopBody st i).trace.length).map Int.ofNat ∧
    (sendingLoopBody st i).pSender.pSendingBuffer.staged =
      staged0 ++ (sendingLoopBody st i).trace.map (fun e => e.cell) := by
  obtain ⟨hseq, hmap, hst⟩ := h
  rcases sendingLoopBody_cases st i with ⟨h1, h2, h3⟩ | ⟨b, e, _, _, h1, h2, h3, _⟩
  · rw [h1, h2, h3]
    exact ⟨hseq, hmap, hst⟩
  · rw [h1, h2, h3]
    refine ⟨?_, ?_, ?_⟩
    · rw [hseq]; simp
    · simp only [List.map_append, List.length_append, List.length_singleton, List.map_cons,
        List.map_nil, List.range_succ]
      rw [hmap, hseq]
      rfl
    · rw [hst]; simp

/-- C13: `runSendingThread` has one sequence counter for all streams, which
starts at 0.  A tick appends its stagings to those made before, appends their
cells to the staged cells in the same order, and advances `seq` by exactly
their number.  So after any number of rounds of the loop `seq` is the number
of stagings made, the stagings carry the sequence numbers 0, 1, 2, ... in
staging order (the order of the staged cells), and these numbers are pairwise
distinct, whichever streams they belong to. -/
theorem seq_counter_counts_stagings (data : Sender) (n : Nat) :
    (runSendingThread 0 data).seq = 0 ∧
    (∀ st : SendingThread,
      (tick st).trace = st.trace ++ tickEvents st ∧
      (tick st).pSender.pSendingBuffer.staged =
        st.pSender.pSendingBuffer.staged ++ (tickEvents st).map (fun e => e.cell) ∧
      (tick st).seq = st.seq + (tickEvents st).length) ∧
    (runSendingThread n data).seq = (runSendingThread n data).trace.length ∧
    (runSendingThread n data).trace.map (fun e => e.seq) =
      (List.range (runSendingThread n data).trace.length).map Int.ofNat ∧
    (runSendingThread n data).pSender.pSendingBuffer.staged =
      data.pSendingBuffer.staged ++ (runSendingThread n data).trace.map (fun e => e.cell) ∧
    ((runSendingThread n data).trace.map (fun e => e.seq)).Nodup := by
  have hrun := runSendingLoop_keeps
    (fun st => st.seq = st.trace.length ∧
      st.trace.map (fun e => e.seq) = (List.range st.trace.length).map Int.ofNat ∧
      st.pSender.pSendingBuffer.staged =
        data.pSendingBuffer.staged ++ st.trace.map (fun e => e.cell))
    (fun st i h => sendingLoopBody_seq_in_order data.pSendingBuffer.staged st i h)
    n { pSender := data, seq := 0, trace := [] } ⟨rfl, rfl, by simp⟩
  refine ⟨rfl, ?_, hrun.1, hrun.2.1, hrun.2.2, ?_⟩
  · intro st
    obtain ⟨h1, h2, h3, _, _⟩ := tickEvents_spec st
    exact ⟨h1, h3, h2⟩
  · have h2 : (runSendingThread n data).trace.map (fun e => e.seq) =
        (List.range (runSendingThread n data).trace.length).map Int.ofNat := hrun.2.1
    rw [h2]
    exact (List.nodup_range _).map Int.ofNat_injective

/-! ## C14: the staging area is never drained -/

/-- What `senderAddToBuffer` does to the staging area: on success the write
position advances by the cell size of the ring, which fits before the end of
the area; otherwise nothing changes.  The capacity never changes. -/
theorem senderAddToBuffer_staging (s : Sender) (b : InOutBuffer) (q : Int) :
    (senderAddToBuffer s b q).2.pSendingBuffer.buffSize = s.pSendingBuffer.buffSize ∧
    (senderAddToBuffer s b q).2.pSendingBuffer.buffCellSize = s.pSendingBuffer.buffCellSize ∧
    (senderAddToBuffer s b q).2.pSendingBuffer.pFront =
      (if (senderAddToBuffer s b q).1 = 0 then
        s.pSendingBuffer.pFront + b.pBuffer.buffCellSize
       else s.pSendingBuffer.pFront) ∧
    ((senderAddToBuffer s b q).2.pSendingBuffer.pFront = s.pSendingBuffer.pFront ∨
      (senderAddToBuffer s b q).2.pSendingBuffer.pFront ≤
        s.pSendingBuffer.buffSize * s.pSendingBuffer.buffCellSize) := by
  unfold senderAddToBuffer
  by_cases h : bufferGetFreeCellNb s.pSendingBuffer ≥ b.pBuffer.buffCellSize
  · rw [if_pos h]
    cases ringBuffFront b.pBuffer with
    | none => simp
    | some cell =>
      refine ⟨rfl, rfl, by simp, ?_⟩
      show s.pSendingBuffer.pFront + b.pBuffer.buffCellSize = s.pSendingBuffer.pFront ∨
        s.pSendingBuffer.pFront + b.pBuffer.buffCellSize ≤
          s.pSendingBuffer.buffSize * s.pSendingBuffer.buffCellSize
      unfold bufferGetFreeCellNb at h
      rcases Nat.eq_zero_or_pos b.pBuffer.buffCellSize with hz | hpos
      · left; omega
      · right
        have hc : 0 < s.pSendingBuffer.buffCellSize := by
          rcases Nat.eq_zero_or_pos s.pSendingBuffer.buffCellSize with hc0 | hc
          · rw [hc0, Nat.div_zero] at h; omega
          · exact hc
        have hmul := (Nat.le_div_iff_mul_le hc).mp h
        have hle : b.pBuffer.buffCellSize ≤
            b.pBuffer.buffCellSize * s.pSendingBuffer.buffCellSize :=
          Nat.le_mul_of_pos_right _ hc
        omega
  · rw [if_neg h]
    simp

/-- A turn changes the staging area only through `senderAddToBuffer`. -/
theorem sendingLoopBody_staging (st : SendingThread) (i : Nat) :
    (sendingLoopBody st i).pSender.pSendingBuffer = st.pSender.pSendingBuffer ∨
    ∃ b, (sendingLoopBody st i).pSender.pSendingBuffer =
      (senderAddToBuffer st.pSender b st.seq).2.pSendingBuffer := by
  cases hb : st.pSender.pptab_inputBuffer[i]? with
  | none => left; simp [sendingLoopBody, hb]
  | some b =>
    by_cases hready : ringBuffIsEmpty b.pBuffer = false ∧ b.isWaitAck = 0 ∧ b.waitTimeCount = 0
    · by_cases hadd : (senderAddToBuffer st.pSender b st.seq).1 = 0
      · right
        refine ⟨b, ?_⟩
        rw [sendingLoopBody_staged st i b hb hready.1 hready.2.1 hready.2.2 hadd]
        rfl
      · left
        rw [sendingLoopBody_failed st i b hb hready.1 hready.2.1 hready.2.2 hadd]
    · left
      rw [sendingLoopBody_skipped st i b hb hready]
      split <;> rfl

/-- A turn keeps the capacity of the staging area, does not move the write
position back, and keeps it before the end of the area unless it never
moved. -/
theorem sendingLoopBody_staging_bounds (b0 : Buffer) (st : SendingThread) (i : Nat)
    (h : st.pSender.pSendingBuffer.buffSize = b0.buffSize ∧
      st.pSender.pSendingBuffer.buffCellSize = b0.buffCellSize ∧
      b0.pFront ≤ st.pSender.pSendingBuffer.pFront ∧
      (st.pSender.pSendingBuffer.pFront = b0.pFront ∨
        st.pSender.pSendingBuffer.pFront ≤ b0.buffSize * b0.buffCellSize)) :
    (sendingLoopBody st i).pSender.pSendingBuffer.buffSize = b0.buffSize ∧
    (sendingLoopBody st i).pSender.pSendingBuffer.buffCellSize = b0.buffCellSize ∧
    b0.pFront ≤ (sendingLoopBody st i).pSender.pSendingBuffer.pFront ∧
    ((sendingLoopBody st i).pSender.pSendingBuffer.pFront = b0.pFront ∨
      (sendingLoopBody st i).pSender.pSendingBuffer.pFront ≤
        b0.buffSize * b0.buffCellSize) := by
  obtain ⟨h1, h2, h3, h4⟩ := h
  rcases sendingLoopBody_staging st i with heq | ⟨b, heq⟩
  · rw [heq]; exact ⟨h1, h2, h3, h4⟩
  · obtain ⟨a1, a2, a3, a4⟩ := senderAddToBuffer_staging st.pSender b st.seq
    rw [heq, a1, a2, h1, h2]
    refine ⟨rfl, rfl, ?_, ?_⟩
    · rw [a3]; split <;> omega
    · rw [h1, h2] at a4
      rcases a4 with a4 | a4
      · rw [a4]; exact h4
      · right; exact a4

/-- C14: `senderSend` changes nothing, and `senderAddToBuffer` moves the write
position `pFront` of the staging area forward by exactly the cell size of the
ring on success and leaves it where it was otherwise.  So over a run of the
loop of any length the write position never moves back, the number of free
cells of the staging area never grows, and the number of bytes staged since
the loop started is at most the free space the staging area had then (its
number of free cells, for the cell size 1 `newSender` gives it). -/
theorem staging_never_drained (st : SendingThread) (n : Nat) :
    (∀ s : Sender, senderSend s = s) ∧
    (∀ (s : Sender) (b : InOutBuffer) (q : Int),
      (senderAddToBuffer s b q).2.pSendingBuffer.pFront =
        if (senderAddToBuffer s b q).1 = 0 then
          s.pSendingBuffer.pFront + b.pBuffer.buffCellSize
        else s.pSendingBuffer.pFront) ∧
    (∀ m, m ≤ n →
      (runSendingLoop m st).pSender.pSendingBuffer.pFront ≤
        (runSendingLoop n st).pSender.pSendingBuffer.pFront ∧
      bufferGetFreeCellNb (runSendingLoop n st).pSender.pSendingBuffer ≤
        bufferGetFreeCellNb (runSendingLoop m st).pSender.pSendingBuffer) ∧
    st.pSender.pSendingBuffer.pFront ≤ (runSendingLoop n st).pSender.pSendingBuffer.pFront ∧
    bufferGetFreeCellNb (runSendingLoop n st).pSender.pSendingBuffer ≤
      bufferGetFreeCellNb st.pSender.pSendingBuffer ∧
    (runSendingLoop n st).pSender.pSendingBuffer.pFront - st.pSender.pSendingBuffer.pFront ≤
      st.pSender.pSendingBuffer.buffSize * st.pSender.pSendingBuffer.buffCellSize -
        st.pSender.pSendingBuffer.pFront ∧
    (st.pSender.pSendingBuffer.buffCellSize = 1 →
      (runSendingLoop n st).pSender.pSendingBuffer.pFront -
          st.pSender.pSendingBuffer.pFront ≤
        bufferGetFreeCellNb st.pSender.pSendingBuffer) := by
  have key : ∀ (j : Nat) (s0 : SendingThread),
      (runSendingLoop j s0).pSender.pSendingBuffer.buffSize =
        s0.pSender.pSendingBuffer.buffSize ∧
      (runSendingLoop j s0).pSender.pSendingBuffer.buffCellSize =
        s0.pSender.pSendingBuffer.buffCellSize ∧
      s0.pSender.pSendingBuffer.pFront ≤ (runSendingLoop j s0).pSender.pSendingBuffer.pFront ∧
      ((runSendingLoop j s0).pSender.pSendingBuffer.pFront = s0.pSender.pSendingBuffer.pFront ∨
        (runSendingLoop j s0).pSender.pSendingBuffer.pFront ≤
          s0.pSender.pSendingBuffer.buffSize * s0.pSender.pSendingBuffer.buffCellSize) := by
    intro j s0
    exact runSendingLoop_keeps
      (fun x => x.pSender.pSendingBuffer.buffSize = s0.pSender.pSendingBuffer.buffSize ∧
        x.pSender.pSendingBuffer.buffCellSize = s0.pSender.pSendingBuffer.buffCellSize ∧
        s0.pSender.pSendingBuffer.pFront ≤ x.pSender.pSendingBuffer.pFront ∧
        (x.pSender.pSendingBuffer.pFront = s0.pSender.pSendingBuffer.pFront ∨
          x.pSender.pSendingBuffer.pFront ≤
            s0.pSender.pSendingBuffer.buffSize * s0.pSender.pSendingBuffer.buffCellSize))
      (fun x i h => sendingLoopBody_staging_bounds s0.pSender.pSendingBuffer x i h)
      j s0 ⟨rfl, rfl, Nat.le_refl _, Or.inl rfl⟩
  have free_le : ∀ (j : Nat) (s0 : SendingThread),
      bufferGetFreeCellNb (runSendingLoop j s0).pSender.pSendingBuffer ≤
        bufferGetFreeCellNb s0.pSender.pSendingBuffer := by
    intro j s0
    obtain ⟨k1, k2, k3, _⟩ := key j s0
    unfold bufferGetFreeCellNb
    rw [k1, k2]
    exact Nat.div_le_div_right (by omega)
  obtain ⟨k1, k2, k3, k4⟩ := key n st
  refine ⟨fun _ => rfl, fun s b q => (senderAddToBuffer_staging s b q).2.2.1, ?_, k3,
    free_le n st, ?_, ?_⟩
  · intro m hm
    obtain ⟨j, rfl⟩ := Nat.exists_eq_add_of_le hm
    rw [runSendingLoop_add]
    exact ⟨(key j (runSendingLoop m st)).2.2.1, free_le j (runSendingLoop m st)⟩
  · rcases k4 with k4 | k4 <;> omega
  · intro hc
    unfold bufferGetFreeCellNb
    rw [hc, Nat.div_one, Nat.mul_one]
    rw [hc, Nat.mul_one] at k4
    rcases k4 with k4 | k4 <;> omega

/-! ## C11: the send callback releases the callback data on `FREE` only -/

theorem release_ne_self (h : JniHeap) (d : ARNETWORK_JNIManager_CallbackData_t) :
    h.release d ≠ h := by
  intro heq
  have hc : (h.release d).freeCount = h.freeCount := by rw [heq]
  simp [JniHeap.release] at hc

/-- One call of the callback on callback data that has not been freed. -/
theorem callback_on_live_data (h : JniHeap) (d : ARNETWORK_JNIManager_CallbackData_t)
    (hd : h.callbackData = some d) (envNonNull customDataNonNull : Bool)
    (javaCallback : Int → Nat → eARNETWORK_MANAGER_CALLBACK_STATUS → Int)
    (IOBufferID : Int) (status : eARNETWORK_MANAGER_CALLBACK_STATUS) :
    ∃ ret, ARNETWORK_JNIManager_Callback_t h envNonNull customDataNonNull javaCallback
        IOBufferID status =
      Except.ok (ret,
        if status = .ARNETWORK_MANAGER_CALLBACK_STATUS_FREE ∧ envNonNull = true ∧
            customDataNonNull = true ∧ d.jManager ≠ 0 then h.release d
        else h) := by
  unfold ARNETWORK_JNIManager_Callback_t
  by_cases hp : envNonNull = true ∧ customDataNonNull = true
  · rw [if_pos hp]
    simp only [hd]
    by_cases hm : d.jManager ≠ 0
    · rw [if_pos hm]
      refine ⟨.fromJava (javaCallback IOBufferID d.jARData status), ?_⟩
      cases status with
      | ARNETWORK_MANAGER_CALLBACK_STATUS_FREE =>
        simp [ARNETWORK_JNIManager_FreeCallbackData, hp.1, hp.2, hd, hm]
      | ARNETWORK_MANAGER_CALLBACK_STATUS_SENT => simp
      | ARNETWORK_MANAGER_CALLBACK_STATUS_ACK_RECEIVED => simp
      | ARNETWORK_MANAGER_CALLBACK_STATUS_TIMEOUT => simp
      | other code => simp
    · rw [if_neg hm]
      exact ⟨.ARNETWORK_MANAGER_CALLBACK_RETURN_DEFAULT,
        by rw [if_neg (fun hc => hm hc.2.2.2)]⟩
  · rw [if_neg hp]
    exact ⟨.ARNETWORK_MANAGER_CALLBACK_RETURN_DEFAULT,
      by rw [if_neg (fun hc => hp ⟨hc.2.1, hc.2.2.1⟩)]⟩

/-- A sequence of callbacks none of which has the status `FREE` leaves the
heap as it is. -/
theorem runCallbacks_without_free
    (javaCallback : Int → Nat → eARNETWORK_MANAGER_CALLBACK_STATUS → Int) (IOBufferID : Int)
    (h : JniHeap) (d : ARNETWORK_JNIManager_CallbackData_t) (hd : h.callbackData = some d)
    (pre : List eARNETWORK_MANAGER_CALLBACK_STATUS)
    (hpre : eARNETWORK_MANAGER_CALLBACK_STATUS.ARNETWORK_MANAGER_CALLBACK_STATUS_FREE ∉ pre) :
    runCallbacks javaCallback IOBufferID h pre = Except.ok h := by
  induction pre with
  | nil => rfl
  | cons s rest ih =>
    have hs : s ≠ .ARNETWORK_MANAGER_CALLBACK_STATUS_FREE := by
      intro hc; exact hpre (by simp [hc])
    obtain ⟨ret, hcall⟩ := callback_on_live_data h d hd true true javaCallback IOBufferID s
    rw [if_neg (fun hc => hs hc.1)] at hcall
    simp only [runCallbacks, hcall]
    exact ih (fun hc => hpre (List.mem_cons_of_mem _ hc))

theorem runCallbacks_append
    (javaCallback : Int → Nat → eARNETWORK_MANAGER_CALLBACK_STATUS → Int) (IOBufferID : Int)
    (l2 : List eARNETWORK_MANAGER_CALLBACK_STATUS) :
    ∀ (l1 : List eARNETWORK_MANAGER_CALLBACK_STATUS) (h h1 : JniHeap),
      runCallbacks javaCallback IOBufferID h l1 = Except.ok h1 →
      runCallbacks javaCallback IOBufferID h (l1 ++ l2) =
        runCallbacks javaCallback IOBufferID h1 l2 := by
  intro l1
  induction l1 with
  | nil =>
    intro h h1 hrun
    simp only [runCallbacks] at hrun
    cases hrun
    rfl
  | cons s rest ih =>
    intro h h1 hrun
    simp only [runCallbacks, List.cons_append] at hrun ⊢
    cases hcall : ARNETWORK_JNIManager_Callback_t h true true javaCallback IOBufferID s with
    | error f => rw [hcall] at hrun; cases hrun
    | ok r =>
      rw [hcall] at hrun
      exact ih r.2 h1 hrun

/-- C11: on callback data that has not been freed, the callback releases it
(deletes the global references `jARData` and `jManager` and frees the
structure) if and only if the status is `FREE`, the environment is non-NULL,
the callback data is non-NULL and `jManager` is non-NULL; in every other case
(`SENT`, `ACK_RECEIVED`, `TIMEOUT`, any other status, a NULL argument) the heap
is left exactly as it was.  So in a sequence of callbacks for one send without
copy the statuses before the first `FREE` leave the data and both references
intact, the first `FREE` releases them, once, and a callback that came after
it would read freed data instead of releasing anything again. -/
theorem callback_releases_on_free_only (h : JniHeap)
    (d : ARNETWORK_JNIManager_CallbackData_t) (hd : h.callbackData = some d)
    (envNonNull customDataNonNull : Bool)
    (javaCallback : Int → Nat → eARNETWORK_MANAGER_CALLBACK_STATUS → Int)
    (IOBufferID : Int) (status : eARNETWORK_MANAGER_CALLBACK_STATUS) :
    (∃ ret, ARNETWORK_JNIManager_Callback_t h envNonNull customDataNonNull javaCallback
        IOBufferID status =
      Except.ok (ret,
        if status = .ARNETWORK_MANAGER_CALLBACK_STATUS_FREE ∧ envNonNull = true ∧
            customDataNonNull = true ∧ d.jManager ≠ 0 then h.release d
        else h)) ∧
    h.release d ≠ h ∧
    (h.release d).callbackData = none ∧
    (h.release d).deletedRefs = h.deletedRefs ++ [d.jARData, d.jManager] ∧
    (h.release d).globalRefs = (h.globalRefs.erase d.jARData).erase d.jManager ∧
    (h.release d).freeCount = h.freeCount + 1 ∧
    (∀ pre : List eARNETWORK_MANAGER_CALLBACK_STATUS,
      eARNETWORK_MANAGER_CALLBACK_STATUS.ARNETWORK_MANAGER_CALLBACK_STATUS_FREE ∉ pre →
      d.jManager ≠ 0 →
      runCallbacks javaCallback IOBufferID h pre = Except.ok h ∧
      runCallbacks javaCallback IOBufferID h
          (pre ++ [.ARNETWORK_MANAGER_CALLBACK_STATUS_FREE]) =
        Except.ok (h.release d) ∧
      ∀ later, runCallbacks javaCallback IOBufferID h
          (pre ++ [.ARNETWORK_MANAGER_CALLBACK_STATUS_FREE] ++ [later]) =
        Except.error JniFault.useAfterFree) := by
  refine ⟨callback_on_live_data h d hd envNonNull customDataNonNull javaCallback IOBufferID
    status, release_ne_self h d, rfl, rfl, rfl, rfl, ?_⟩
  intro pre hpre hm
  have hrun := runCallbacks_without_free javaCallback IOBufferID h d hd pre hpre
  have hfree : runCallbacks javaCallback IOBufferID h
      (pre ++ [.ARNETWORK_MANAGER_CALLBACK_STATUS_FREE]) = Except.ok (h.release d) := by
    rw [runCallbacks_append javaCallback IOBufferID _ pre h h hrun]
    obtain ⟨ret, hcall⟩ := callback_on_live_data h d hd true true javaCallback IOBufferID
      .ARNETWORK_MANAGER_CALLBACK_STATUS_FREE
    rw [if_pos ⟨rfl, rfl, rfl, hm⟩] at hcall
    simp only [runCallbacks, hcall]
  refine ⟨hrun, hfree, ?_⟩
  intro later
  rw [runCallbacks_append javaCallback IOBufferID _ _ h (h.release d) hfree]
  simp [runCallbacks, ARNETWORK_JNIManager_Callback_t, JniHeap.release]

/-- C11 on `heapOneSend`: `SENT` then `ACK_RECEIVED` leave the callback data
and the references 7 and 8 in place; `FREE` deletes 8 and 7 and frees the
structure, once. -/
theorem callback_releases_on_free_only_witness :
    runCallbacks javaAnswersZero 1 heapOneSend
        [.ARNETWORK_MANAGER_CALLBACK_STATUS_SENT,
         .ARNETWORK_MANAGER_CALLBACK_STATUS_ACK_RECEIVED] =
      Except.ok heapOneSend ∧
    runCallbacks javaAnswersZero 1 heapOneSend
        ([.ARNETWORK_MANAGER_CALLBACK_STATUS_SENT,
          .ARNETWORK_MANAGER_CALLBACK_STATUS_ACK_RECEIVED] ++
          [.ARNETWORK_MANAGER_CALLBACK_STATUS_FREE]) =
      Except.ok { callbackData := none, globalRefs := [], deletedRefs := [8, 7],
                  freeCount := 1 } := by
  have h := (callback_releases_on_free_only heapOneSend { jManager := 7, jARData := 8 } rfl
    true true javaAnswersZero 1 .ARNETWORK_MANAGER_CALLBACK_STATUS_FREE).2.2.2.2.2.2
    [.ARNETWORK_MANAGER_CALLBACK_STATUS_SENT, .ARNETWORK_MANAGER_CALLBACK_STATUS_ACK_RECEIVED]
    (by decide) (by decide)
  exact ⟨h.1, h.2.1⟩

/-! ## C15: `nativeSendData` when the callback data cannot be allocated -/

/-- With a copy of the data no callback data is allocated and the manager is
handed the data at once. -/
theorem nativeSendData_with_copy (env : SendDataEnv) (obj : Nat) (inputBufferID : Int)
    (ARData : Nat) (jdataPtr dataSize doDataCopy : Int) (hcopy : doDataCopy ≠ 0) :
    nativeSendData env obj inputBufferID ARData jdataPtr dataSize doDataCopy =
      Except.ok
        { error := env.ARNETWORK_Manager_SendData inputBufferID jdataPtr dataSize none
            doDataCopy
          callbackData := none
          globalRefs := []
          sendDataCalled := true } := by
  unfold nativeSendData
  rw [if_neg hcopy]

/-- C15 (the code at the failing input): `doDataCopy = 0` and `malloc` of the
callback data returns NULL.  `error` is set to `ARNETWORK_ERROR_ALLOC`, but the
two assignments that follow are not guarded: the global reference of the
manager is stored through the NULL pointer, instead of the function returning
`ARNETWORK_ERROR_ALLOC` without touching it. -/
theorem nativeSendData_alloc_failure_writes_null :
    envCallbackDataAllocFails.callbackDataMallocOk = false ∧
    nativeSendData envCallbackDataAllocFails 1 1 2 0 0 0 =
      Except.error JniFault.nullCallbackDataWrite :=
  ⟨rfl, rfl⟩

end ARNetwork
